import Mathlib

/-!
# Smart Deals server (`src/api/index.js`)

A shallow embedding of the Express application: the Auth Gate
(`verifyFireBaseToken`), the eleven routes registered inside `run`, and a model of the
two external collaborators the handlers talk to (the Credential Verifier and the
document store).  Every run is instrumented with a log of the verifier calls and of the
storage operations it issued, so that "is not called" and "no query is issued" are
statements about values.

Numbers are JavaScript doubles as far as `parseInt` produces them.  Stored values are
scalars; where a call would leave that (a `$set` path that writes an embedded document,
a limit that is not a 64-bit integer) the run is marked as not `covered`.
-/

namespace SmartDeals

/-! ## JavaScript strings -/

/-- Pieces of a character list between occurrences of `sep`
(`String.prototype.split` with a one-character separator). -/
def splitChars (sep : Char) : List Char → List (List Char)
  | [] => [[]]
  | c :: cs =>
    if c = sep then [] :: splitChars sep cs
    else
      match splitChars sep cs with
      | [] => [[c]]
      | p :: ps => (c :: p) :: ps

/-- JavaScript `s.split(sep)` for a one-character separator. -/
def jsSplit (sep : Char) (s : String) : List String :=
  (splitChars sep s.toList).map String.mk

/-- White space in the sense of JavaScript `StrWhiteSpaceChar` (what `parseInt` skips). -/
def isStrWhiteSpaceChar (c : Char) : Bool :=
  decide (c.toNat ∈ [0x09, 0x0A, 0x0B, 0x0C, 0x0D, 0x20, 0xA0, 0x1680, 0x2028, 0x2029,
    0x202F, 0x205F, 0x3000, 0xFEFF]) || (decide (0x2000 ≤ c.toNat) && decide (c.toNat ≤ 0x200A))

/-- Value of a character as a digit, for radix up to 16 (`none` when it is no digit). -/
def digitValue (c : Char) : Option Nat :=
  if 48 ≤ c.toNat ∧ c.toNat ≤ 57 then some (c.toNat - 48)
  else if 97 ≤ c.toNat ∧ c.toNat ≤ 102 then some (c.toNat - 87)
  else if 65 ≤ c.toNat ∧ c.toNat ≤ 70 then some (c.toNat - 55)
  else none

/-- Digit values of the longest leading run of radix-`r` digits. -/
def takeDigits (r : Nat) : List Char → List Nat
  | [] => []
  | c :: cs =>
    match digitValue c with
    | some d => if d < r then d :: takeDigits r cs else []
    | none => []

/-- Number denoted by a list of digit values, most significant first. -/
def digitsValue (r : Nat) (ds : List Nat) : Nat :=
  ds.foldl (fun acc d => acc * r + d) 0

/-- Sign step of `parseInt`: a leading `-` or `+` is removed, `-` negates. -/
def splitSign : List Char → Bool × List Char
  | '-' :: t => (true, t)
  | '+' :: t => (false, t)
  | cs => (false, cs)

/-- Radix step of `parseInt` called without a radix: `0x` / `0X` selects 16, else 10. -/
def splitRadix : List Char → Nat × List Char
  | '0' :: 'x' :: t => (16, t)
  | '0' :: 'X' :: t => (16, t)
  | cs => (10, cs)

/-- A JavaScript number as `parseInt` can return it: `NaN`, a double whose value is an
integer, or an infinity.  `-0` is kept as `fin 0` (both are falsy). -/
inductive JSNumber where
  | nan
  | fin (n : Int)
  | posInf
  | negInf
  deriving DecidableEq

/-- The power `2 ^ e`. -/
def pow2 : Nat → Nat
  | 0 => 1
  | e + 1 => 2 * pow2 e

/-- Number of low bits a number has beyond the 53 a double keeps (`fuel` bounds the
halvings; the number itself is enough). -/
def excessBits : Nat → Nat → Nat
  | 0, _ => 0
  | fuel + 1, m => if m < 9007199254740992 then 0 else excessBits fuel (m / 2) + 1

/-- The double nearest to a natural number, ties to even (IEEE 754 binary64): exact below
`2 ^ 53 = 9007199254740992`, a multiple of a power of two above, and `none` (Infinity)
when the rounded value reaches `2 ^ 1024`. -/
def toDouble (m : Nat) : Option Nat :=
  if m < 9007199254740992 then some m
  else
    let e := excessBits m m
    let q := m / pow2 e
    let r := m % pow2 e
    let q2 := if pow2 (e - 1) < r ∨ (r = pow2 (e - 1) ∧ q % 2 = 1) then q + 1 else q
    if q2 * pow2 e < pow2 1024 then some (q2 * pow2 e) else none

/-- JavaScript `parseInt(s)` (no radix argument): leading white space is skipped, a sign
is read, `0x` selects radix 16, and the longest run of digits is the number, rounded to
a double.  No digit gives `NaN`. -/
def parseInt (s : String) : JSNumber :=
  let signed := splitSign (s.toList.dropWhile isStrWhiteSpaceChar)
  let based := splitRadix signed.2
  let ds := takeDigits based.1 based.2
  if ds = [] then .nan
  else
    match toDouble (digitsValue based.1 ds) with
    | some m => if signed.1 then .fin (-(m : Int)) else .fin (m : Int)
    | none => if signed.1 then .negInf else .posInf

/-- JavaScript truthiness of a number: `NaN` and zero are falsy. -/
def JSNumber.truthy : JSNumber → Bool
  | .nan => false
  | .fin n => decide (n ≠ 0)
  | .posInf => true
  | .negInf => true

/-- JavaScript `ToString` of a possibly `undefined` string: what `parseInt` sees. -/
def jsToString : Option String → String
  | some s => s
  | none => "undefined"

/-- Character of a decimal digit. -/
def decChar (d : Fin 10) : Char := Nat.digitChar d.val

/-! ## Documents and identifiers -/

/-- An `ObjectId`: twelve bytes, kept as twenty-four hexadecimal digits. -/
abbrev ObjectId := { l : List (Fin 16) // l.length = 24 }

/-- Lower-case hexadecimal character of a digit. -/
def hexChar (n : Fin 16) : Char :=
  "0123456789abcdef".toList.getD n.val '0'

/-- Hexadecimal digit of a character, either case (`none` when it is not one). -/
def hexValue (c : Char) : Option (Fin 16) :=
  match digitValue c with
  | some d => if h : d < 16 then some ⟨d, h⟩ else none
  | none => none

/-- Hexadecimal digits of a character list (`none` when some character is not one). -/
def hexDigits : List Char → Option (List (Fin 16))
  | [] => some []
  | c :: cs =>
    match hexValue c, hexDigits cs with
    | some d, some ds => some (d :: ds)
    | _, _ => none

/-- `ObjectId.prototype.toHexString` (also the JSON form of an identifier). -/
def ObjectId.toHexString (o : ObjectId) : String :=
  String.mk (o.val.map hexChar)

/-- `new ObjectId(id)` for a string `id`: `none` when the constructor throws, which it
does unless `id` is a 24 character hex string. -/
def ObjectId.ofString? (s : String) : Option ObjectId :=
  match hexDigits s.toList with
  | some ds => if h : ds.length = 24 then some ⟨ds, h⟩ else none
  | none => none

/-- Field values of stored documents: the scalar BSON types the routes touch.  Nested
documents and arrays are not modelled. -/
inductive Value where
  | null
  | bool (b : Bool)
  | num (n : Int)
  | str (s : String)
  | oid (o : ObjectId)
  deriving DecidableEq

/-- A document: its fields in order. -/
abbrev Document := List (String × Value)

/-- Field lookup (`undefined` is `none`). -/
def Document.get (d : Document) (k : String) : Option Value :=
  List.lookup k d

/-- Text of an identifier as a client puts it in a URL path: the JSON form of the value,
unquoted. -/
def Value.toPathSegment : Value → String
  | .null => "null"
  | .bool b => if b then "true" else "false"
  | .num n => toString n
  | .str s => s
  | .oid o => o.toHexString

/-- The two collections of database `smartDeals`. -/
structure Store where
  products : List Document
  bids : List Document
  deriving DecidableEq

/-! ## Storage Gateway: the document store as the handlers use it -/

/-- Collections the handlers address. -/
inductive Coll where
  | products
  | bids
  deriving DecidableEq

/-- Calls made on the storage layer, as logged by a run.  Every `find` is sorted by
`created_at` descending; its filter is one field equality or none, its limit the
argument of `.limit` when present. -/
inductive StorageOp where
  | find (c : Coll) (filter : Option (String × Value)) (limit : Option JSNumber)
  | findOne (c : Coll) (id : ObjectId)
  | insertOne (c : Coll) (doc : Document)
  | updateOne (c : Coll) (id : ObjectId) (set : Document)
  | deleteOne (c : Coll) (id : ObjectId)
  deriving DecidableEq

/-- Position of a value's type in the BSON comparison order. -/
def Value.rank : Value → Nat
  | .null => 0
  | .num _ => 1
  | .str _ => 2
  | .oid _ => 3
  | .bool _ => 4

/-- An identifier read as a number (byte order of the twelve bytes). -/
def oidNat (o : ObjectId) : Nat :=
  digitsValue 16 (o.val.map Fin.val)

/-- BSON comparison order restricted to the modelled values. -/
def Value.le : Value → Value → Bool
  | .num m, .num n => decide (m ≤ n)
  | .str s, .str t => decide (s ≤ t)
  | .oid x, .oid y => decide (oidNat x ≤ oidNat y)
  | .bool x, .bool y => !x || y
  | a, b => decide (a.rank ≤ b.rank)

/-- Sort key of `.sort(created_at: -1)`: a missing field sorts as `null`. -/
def createdAt (d : Document) : Value :=
  (d.get "created_at").getD Value.null

/-- Order of two documents under `.sort(created_at: -1)`: newer first. -/
def createdDesc (a b : Document) : Prop :=
  Value.le (createdAt b) (createdAt a) = true

instance createdDesc_decidable : DecidableRel createdDesc :=
  fun a b => inferInstanceAs (Decidable (Value.le (createdAt b) (createdAt a) = true))

/-- Cursor `.sort(created_at: -1)`. -/
def sortCreatedAtDesc (ds : List Document) : List Document :=
  List.insertionSort createdDesc ds

/-- Cursor `.limit(n)` for a limit that is a 64-bit integer: `0` is no limit, a negative
`n` asks for one batch of `|n|`.  For any other number the result is `none`: what the
store does with it is not part of this model. -/
def cursorLimit (n : JSNumber) (ds : List Document) : Option (List Document) :=
  match n with
  | .fin k =>
    if k = 0 then some ds
    else if k.natAbs < 9223372036854775808 then some (ds.take k.natAbs)
    else none
  | _ => none

/-- Filter of the form `field: value`. -/
def matchesField (k : String) (v : Value) (d : Document) : Bool :=
  d.get k == some v

/-- Filter `_id: id`. -/
def hasId (id : Value) (d : Document) : Bool :=
  matchesField "_id" id d

/-- Property assignment `d[k] = v`: overwrite in place, or add the field at the end. -/
def Document.set (d : Document) (k : String) (v : Value) : Document :=
  if (d.get k).isSome then d.map (fun kv => if kv.1 = k then (k, v) else kv)
  else d ++ [(k, v)]

/-- Update operator `$set` for an operand `body` whose names are plain field names:
fields the document has are overwritten in place, the others are added. -/
def applySet (body doc : Document) : Document :=
  doc.map (fun kv => (kv.1, (body.get kv.1).getD kv.2)) ++
    body.filter (fun kv => (doc.get kv.1).isNone)

/-- Replace by `f d` the first element `d` that satisfies `p`. -/
def modifyFirst {α : Type} (p : α → Bool) (f : α → α) : List α → List α
  | [] => []
  | d :: ds => if p d then f d :: ds else d :: modifyFirst p f ds

/-- `collection.findOne(_id: id)`: `none` is `null`. -/
def findOne (id : ObjectId) (c : List Document) : Option Document :=
  c.find? (hasId (.oid id))

/-- Identifier a document is stored under: its own `_id` when it has one that is not
`null`, else the `ObjectId` the driver generates. -/
def insertedId (fresh : ObjectId) (doc : Document) : Value :=
  match doc.get "_id" with
  | none => .oid fresh
  | some .null => .oid fresh
  | some v => v

/-- `collection.insertOne(doc)`: the acknowledged identifier and the new contents, or
`none` when the store rejects a duplicate `_id`. -/
def insertOne (fresh : ObjectId) (doc : Document) (c : List Document) :
    Option (Value × List Document) :=
  let id := insertedId fresh doc
  if c.any (hasId id) then none else some (id, c ++ [doc.set "_id" id])

/-- A name of the `$set` operand that can never be written: it holds U+0000, or one of
its dot-separated parts is empty (the empty name included). -/
def malformedName (k : String) : Bool :=
  k.toList.contains (Char.ofNat 0) || (splitChars '.' k.toList).any (fun part => part.isEmpty)

/-- A name of the `$set` operand that the store reads as a path into embedded
documents. -/
def dottedName (k : String) : Bool :=
  k.toList.contains '.'

/-- A name of the `$set` operand that is a plain field name: well formed, not a path,
not starting with `$`. -/
def plainName (k : String) : Bool :=
  !malformedName k && !dottedName k && !(k.toList.head? == some '$')

/-- First part of a name read as a path. -/
def nameHead (k : String) : String :=
  String.mk (k.toList.takeWhile (fun c => !(c == '.')))

/-- Whether the store refuses to apply one field of the `$set` operand to the matched
document: the name starts with `$`; or it is a path whose first part the document holds
(every value of this model is a scalar, which has no fields); or it is `_id` with a
value other than the document's identifier, which is immutable. -/
def setRefused (id : ObjectId) (doc : Document) (kv : String × Value) : Bool :=
  (kv.1.toList.head? == some '$') ||
  (dottedName kv.1 && (doc.get (nameHead kv.1)).isSome) ||
  (kv.1 == "_id" && !(kv.2 == Value.oid id))

/-- Result of `updateOne`.  `refused`: the call fails and nothing is written.
`unmodelled`: the operand has a name that is not plain and is not refused here (a path
that would write an embedded document, or a name whose handling without a matched
document is left open); such a call is outside this model.  `done`: matched count,
modified count and the new contents. -/
inductive UpdateResult where
  | refused
  | unmodelled
  | done (matchedCount modifiedCount : Nat) (c : List Document)
  deriving DecidableEq

/-- `collection.updateOne(_id: id, $set: body)`, no upsert.  A malformed name is refused
before any document is looked at; an operand without fields is accepted and changes
nothing. -/
def updateOne (id : ObjectId) (body : Document) (c : List Document) : UpdateResult :=
  if body.any (fun kv => malformedName kv.1) then .refused
  else
    match findOne id c with
    | none => if body.all (fun kv => plainName kv.1) then .done 0 0 c else .unmodelled
    | some d =>
      if body.any (setRefused id d) then .refused
      else if body.all (fun kv => plainName kv.1) then
        .done 1 (if applySet body d = d then 0 else 1)
          (modifyFirst (hasId (.oid id)) (applySet body) c)
      else .unmodelled

/-- `collection.deleteOne(_id: id)`: deleted count and the new contents. -/
def deleteOne (id : ObjectId) (c : List Document) : Nat × List Document :=
  (if c.any (hasId (.oid id)) then 1 else 0, c.eraseP (hasId (.oid id)))

/-! ## Requests, responses, the Credential Verifier -/

/-- Path parameters (`req.params`); a route reads only the one its pattern names. -/
structure Params where
  id : String := ""
  email : String := ""
  productId : String := ""
  deriving DecidableEq

/-- What the code reads of a request. -/
structure Request where
  /-- `req.headers.authorization` -/
  authorization : Option String := none
  /-- `req.params` -/
  params : Params := {}
  /-- `req.query.limit` -/
  limit : Option String := none
  /-- `req.body` -/
  body : Document := []
  /-- `req.token_email` (`none` is `undefined`) -/
  token_email : Option String := none
  deriving DecidableEq

/-- Response bodies. -/
inductive Payload where
  | text (s : String)
  | message (s : String)
  | documents (ds : List Document)
  | document (d : Option Document)
  | inserted (insertedId : Value)
  | updated (matchedCount modifiedCount : Nat)
  | deleted (deletedCount : Nat)
  deriving DecidableEq

/-- A response: status code and body. -/
structure Response where
  status : Nat
  body : Payload
  deriving DecidableEq

/-- `res.send(b)`: status 200. -/
def send (b : Payload) : Response := ⟨200, b⟩

/-- `res.status(401).send(message: "Unauthorize Access")`. -/
def unauthorized : Response := ⟨401, .message "Unauthorize Access"⟩

/-- `res.status(403).send(message: "Forbidden Access")`. -/
def forbidden : Response := ⟨403, .message "Forbidden Access"⟩

/-- Decoded token returned by the Credential Verifier; `email` may be missing. -/
structure AuthInfo where
  email : Option String
  deriving DecidableEq

/-- The Credential Verifier `admin.auth().verifyIdToken`: `none` when it rejects. -/
abbrev Verifier := String → Option AuthInfo

/-! ## The Auth Gate -/

/-- What a run of the Auth Gate did: the response it sent (if any), how many times it
called `next`, the request as it left it, and the tokens it handed to the verifier. -/
structure GateResult where
  response : Option Response
  nextCalls : Nat
  req : Request
  verifierCalls : List String
  deriving DecidableEq

/-- The middleware `verifyFireBaseToken`. -/
def verifyFireBaseToken (verifyIdToken : Verifier) (req : Request) : GateResult :=
  match req.authorization with
  | none => ⟨some unauthorized, 0, req, []⟩
  | some header =>
    if header = "" then ⟨some unauthorized, 0, req, []⟩
    else
      match (jsSplit ' ' header)[1]? with
      | none => ⟨some unauthorized, 0, req, []⟩
      | some token =>
        if token = "" then ⟨some unauthorized, 0, req, []⟩
        else
          match verifyIdToken token with
          | some authInfo => ⟨none, 1, { req with token_email := authInfo.email }, [token]⟩
          | none => ⟨some unauthorized, 0, req, [token]⟩

/-! ## The routes -/

/-- Routes of the application, in registration order. -/
inductive Route where
  | root
  | getProducts
  | getRecentProducts
  | getProductById
  | postProducts
  | getMyProducts
  | putProduct
  | deleteProduct
  | postBids
  | getBidsByProduct
  | getBidsByUser
  | deleteBid
  deriving DecidableEq

/-- Whether the route is registered with `verifyFireBaseToken` before its handler. -/
def usesGate : Route → Bool
  | .root => false
  | .getProducts => false
  | .getRecentProducts => false
  | .getProductById => false
  | .postProducts => true
  | .getMyProducts => true
  | .putProduct => true
  | .deleteProduct => true
  | .postBids => true
  | .getBidsByProduct => true
  | .getBidsByUser => true
  | .deleteBid => true

/-- What a handler did: the response it sent (`none` when it threw before sending one,
which the application does not handle), the store afterwards, the storage calls, and
whether the run stayed inside what this model of the store describes (when `covered` is
`false` only `ops` is meaningful). -/
structure HandlerResult where
  response : Option Response
  store : Store
  ops : List StorageOp
  covered : Bool
  deriving DecidableEq

/-- Handler of `GET /`. -/
def rootHandler (s : Store) : HandlerResult :=
  ⟨some (send (.text "smart deals server running")), s, [], true⟩

/-- Handler of `GET /products`. -/
def getProducts (s : Store) : HandlerResult :=
  ⟨some (send (.documents (sortCreatedAtDesc s.products))), s, [.find .products none none],
    true⟩

/-- The expression `parseInt(req.query.limit) || 6`. -/
def recentLimit (req : Request) : JSNumber :=
  if (parseInt (jsToString req.limit)).truthy then parseInt (jsToString req.limit)
  else .fin 6

/-- Handler of `GET /recentProducts`. -/
def getRecentProducts (req : Request) (s : Store) : HandlerResult :=
  match cursorLimit (recentLimit req) (sortCreatedAtDesc s.products) with
  | some ds =>
    ⟨some (send (.documents ds)), s, [.find .products none (some (recentLimit req))], true⟩
  | none => ⟨none, s, [.find .products none (some (recentLimit req))], false⟩

/-- Handler of `GET /products/:id`. -/
def getProductById (req : Request) (s : Store) : HandlerResult :=
  match ObjectId.ofString? req.params.id with
  | none => ⟨none, s, [], true⟩
  | some id =>
    ⟨some (send (.document (findOne id s.products))), s, [.findOne .products id], true⟩

/-- Handler of `POST /products`. -/
def postProducts (fresh : ObjectId) (req : Request) (s : Store) : HandlerResult :=
  match insertOne fresh req.body s.products with
  | none => ⟨none, s, [.insertOne .products req.body], true⟩
  | some r => ⟨some (send (.inserted r.1)), { s with products := r.2 },
      [.insertOne .products req.body], true⟩

/-- Handler of `GET /myProducts/:email`. -/
def getMyProducts (req : Request) (s : Store) : HandlerResult :=
  if req.token_email ≠ some req.params.email then ⟨some forbidden, s, [], true⟩
  else
    ⟨some (send (.documents (sortCreatedAtDesc
        (s.products.filter (matchesField "email" (.str req.params.email)))))), s,
      [.find .products (some ("email", .str req.params.email)) none], true⟩

/-- Handler of `PUT /products/:id`. -/
def putProduct (req : Request) (s : Store) : HandlerResult :=
  match ObjectId.ofString? req.params.id with
  | none => ⟨none, s, [], true⟩
  | some id =>
    match updateOne id req.body s.products with
    | .refused => ⟨none, s, [.updateOne .products id req.body], true⟩
    | .unmodelled => ⟨none, s, [.updateOne .products id req.body], false⟩
    | .done m n c => ⟨some (send (.updated m n)), { s with products := c },
        [.updateOne .products id req.body], true⟩

/-- Handler of `DELETE /products/:id`. -/
def deleteProduct (req : Request) (s : Store) : HandlerResult :=
  match ObjectId.ofString? req.params.id with
  | none => ⟨none, s, [], true⟩
  | some id =>
    ⟨some (send (.deleted (deleteOne id s.products).1)),
      { s with products := (deleteOne id s.products).2 }, [.deleteOne .products id], true⟩

/-- Handler of `POST /bids`. -/
def postBids (fresh : ObjectId) (req : Request) (s : Store) : HandlerResult :=
  match insertOne fresh req.body s.bids with
  | none => ⟨none, s, [.insertOne .bids req.body], true⟩
  | some r => ⟨some (send (.inserted r.1)), { s with bids := r.2 },
      [.insertOne .bids req.body], true⟩

/-- Handler of `GET /bids/product/:productId`. -/
def getBidsByProduct (req : Request) (s : Store) : HandlerResult :=
  ⟨some (send (.documents (sortCreatedAtDesc
      (s.bids.filter (matchesField "product_id" (.str req.params.productId)))))), s,
    [.find .bids (some ("product_id", .str req.params.productId)) none], true⟩

/-- Handler of `GET /bids/user/:email`. -/
def getBidsByUser (req : Request) (s : Store) : HandlerResult :=
  if req.token_email ≠ some req.params.email then ⟨some forbidden, s, [], true⟩
  else
    ⟨some (send (.documents (sortCreatedAtDesc
        (s.bids.filter (matchesField "buyer_email" (.str req.params.email)))))), s,
      [.find .bids (some ("buyer_email", .str req.params.email)) none], true⟩

/-- Handler of `DELETE /bids/:id`. -/
def deleteBid (req : Request) (s : Store) : HandlerResult :=
  match ObjectId.ofString? req.params.id with
  | none => ⟨none, s, [], true⟩
  | some id =>
    ⟨some (send (.deleted (deleteOne id s.bids).1)),
      { s with bids := (deleteOne id s.bids).2 }, [.deleteOne .bids id], true⟩

/-- The handler registered for a route.  `fresh` is the identifier the driver would
generate for a document inserted by this request. -/
def handler (fresh : ObjectId) : Route → Request → Store → HandlerResult
  | .root, _, s => rootHandler s
  | .getProducts, _, s => getProducts s
  | .getRecentProducts, req, s => getRecentProducts req s
  | .getProductById, req, s => getProductById req s
  | .postProducts, req, s => postProducts fresh req s
  | .getMyProducts, req, s => getMyProducts req s
  | .putProduct, req, s => putProduct req s
  | .deleteProduct, req, s => deleteProduct req s
  | .postBids, req, s => postBids fresh req s
  | .getBidsByProduct, req, s => getBidsByProduct req s
  | .getBidsByUser, req, s => getBidsByUser req s
  | .deleteBid, req, s => deleteBid req s

/-- What serving one request did (`covered` as for a handler). -/
structure Outcome where
  response : Option Response
  store : Store
  verifierCalls : List String
  handlerRuns : Nat
  storageOps : List StorageOp
  covered : Bool
  deriving DecidableEq

/-- One request through the application: the gate first where the route is registered
with it, the handler only when the gate called `next`. -/
def serve (verifyIdToken : Verifier) (fresh : ObjectId) (r : Route) (req : Request)
    (s : Store) : Outcome :=
  if usesGate r then
    let g := verifyFireBaseToken verifyIdToken req
    if g.nextCalls = 0 then ⟨g.response, s, g.verifierCalls, 0, [], true⟩
    else
      let h := handler fresh r g.req s
      ⟨h.response, h.store, g.verifierCalls, g.nextCalls, h.ops, h.covered⟩
  else
    let h := handler fresh r req s
    ⟨h.response, h.store, [], 1, h.ops, h.covered⟩

/-- The eight routes the specification lists as protected. -/
def protectedRoutes : List Route :=
  [.postProducts, .getMyProducts, .putProduct, .deleteProduct, .postBids,
   .getBidsByProduct, .getBidsByUser, .deleteBid]

/-- The five routes that change the store. -/
def mutationRoutes : List Route :=
  [.postProducts, .putProduct, .deleteProduct, .postBids, .deleteBid]

/-- Words of a character list, given the word being read (reversed): the maximal runs of
characters that are not white space. -/
def wordsAux : List Char → List Char → List (List Char)
  | cur, [] => if cur = [] then [] else [cur.reverse]
  | cur, c :: cs =>
    if isStrWhiteSpaceChar c then
      (if cur = [] then wordsAux [] cs else cur.reverse :: wordsAux [] cs)
    else wordsAux (c :: cur) cs

/-- Words of a character list. -/
def wordsOf (cs : List Char) : List (List Char) :=
  wordsAux [] cs

/-- The specification's token: the second white-space-delimited segment of the header. -/
def specSecondSegment (header : String) : Option String :=
  ((wordsOf header.toList).map String.mk)[1]?

/-- The request passes the Auth Gate: the gate calls `next`. -/
def authenticated (verifyIdToken : Verifier) (req : Request) : Prop :=
  (verifyFireBaseToken verifyIdToken req).nextCalls = 1

instance authenticated_decidable (verifyIdToken : Verifier) (req : Request) :
    Decidable (authenticated verifyIdToken req) :=
  inferInstanceAs (Decidable ((verifyFireBaseToken verifyIdToken req).nextCalls = 1))

/-- Identifier uniqueness in a collection: no two documents share an `_id`. -/
def uniqueIds (c : List Document) : Prop :=
  c.Pairwise (fun x y => x.get "_id" ≠ y.get "_id")

/-! ## Sample data -/

/-- The identifier `aaaaaaaaaaaaaaaaaaaaaaaa`. -/
def idA : ObjectId := ⟨List.replicate 24 10, by decide⟩

/-- The identifier `bbbbbbbbbbbbbbbbbbbbbbbb`. -/
def idB : ObjectId := ⟨List.replicate 24 11, by decide⟩

/-- A verifier that accepts the token `tok` for `alice@x.com`, `tok2` for
`mallory@x.com`, and rejects every other token. -/
def sampleVerifier : Verifier := fun t =>
  if t = "tok" then some ⟨some "alice@x.com"⟩
  else if t = "tok2" then some ⟨some "mallory@x.com"⟩
  else none

/-- A verifier that accepts every token for `alice@x.com`. -/
def acceptAll : Verifier := fun _ => some ⟨some "alice@x.com"⟩

/-- A verifier that accepts every token for `mallory@x.com`. -/
def acceptAsMallory : Verifier := fun _ => some ⟨some "mallory@x.com"⟩

/-- The digit `9` written 310 times. -/
def nines310 : String := String.mk (List.replicate 310 '9')

/-- A store with 9007199254740993 products (all of them empty documents). -/
def hugeStore : Store := ⟨List.replicate 9007199254740993 [], []⟩

/-- The store with no documents. -/
def emptyStore : Store := ⟨[], []⟩

/-! ## Auth Gate: lemmas -/

theorem splitChars_ne_nil (sep : Char) (cs : List Char) : splitChars sep cs ≠ [] := by
  induction cs with
  | nil => simp [splitChars]
  | cons c cs ih =>
    unfold splitChars
    split
    · simp
    · split <;> simp

theorem splitChars_of_not_mem (sep : Char) (cs : List Char) (h : sep ∉ cs) :
    splitChars sep cs = [cs] := by
  induction cs with
  | nil => rfl
  | cons c cs ih =>
    have hc : c ≠ sep := fun e => h (by simp [e])
    have hcs : sep ∉ cs := fun e => h (by simp [e])
    simp [splitChars, hc, ih hcs]

theorem splitChars_append_sep (sep : Char) (a rest : List Char) (h : sep ∉ a) :
    splitChars sep (a ++ sep :: rest) = a :: splitChars sep rest := by
  induction a with
  | nil => simp [splitChars]
  | cons c cs ih =>
    have hc : c ≠ sep := fun e => h (by simp [e])
    have hcs : sep ∉ cs := fun e => h (by simp [e])
    simp [splitChars, hc, ih hcs]

theorem splitChars_head (sep : Char) (cs : List Char) :
    (splitChars sep cs)[0]? = some (cs.takeWhile (fun c => decide (c ≠ sep))) := by
  induction cs with
  | nil => rfl
  | cons c cs ih =>
    by_cases hc : c = sep
    · simp [splitChars, hc]
    · cases hs : splitChars sep cs with
      | nil => exact absurd hs (splitChars_ne_nil sep cs)
      | cons p ps =>
        rw [hs] at ih
        simp at ih
        simp [splitChars, hc, hs, ih]

theorem jsSplit_second (header : String) (a rest : List Char)
    (hd : header.toList = a ++ ' ' :: rest) (ha : ' ' ∉ a) :
    (jsSplit ' ' header)[1]? = some (String.mk (rest.takeWhile (fun c => decide (c ≠ ' ')))) := by
  have h0 := splitChars_head ' ' rest
  simp only [jsSplit, hd, splitChars_append_sep ' ' a rest ha, List.map_cons,
    List.getElem?_cons_succ, List.getElem?_map, h0, Option.map_some']

theorem jsSplit_second_none (header : String) (h : ' ' ∉ header.toList) :
    (jsSplit ' ' header)[1]? = none := by
  unfold jsSplit
  rw [splitChars_of_not_mem ' ' header.toList h]
  rfl

theorem usesGate_of_mem {r : Route} (hr : r ∈ protectedRoutes) : usesGate r = true := by
  simp only [protectedRoutes, List.mem_cons, List.mem_singleton, List.not_mem_nil, or_false] at hr
  rcases hr with h | h | h | h | h | h | h | h <;> subst h <;> rfl

theorem header_ne_empty {header token : String}
    (ht : (jsSplit ' ' header)[1]? = some token) : header ≠ "" := by
  intro e
  subst e
  have : (jsSplit ' ' "")[1]? = none := by decide
  rw [this] at ht
  cases ht

theorem gate_accepts (verifyIdToken : Verifier) (req : Request) (header token : String)
    (info : AuthInfo) (hh : req.authorization = some header)
    (ht : (jsSplit ' ' header)[1]? = some token) (hne : token ≠ "")
    (hv : verifyIdToken token = some info) :
    verifyFireBaseToken verifyIdToken req =
      ⟨none, 1, { req with token_email := info.email }, [token]⟩ := by
  simp [verifyFireBaseToken, hh, header_ne_empty ht, ht, hne, hv]

theorem gate_rejects (verifyIdToken : Verifier) (req : Request) (header token : String)
    (hh : req.authorization = some header)
    (ht : (jsSplit ' ' header)[1]? = some token) (hne : token ≠ "")
    (hv : verifyIdToken token = none) :
    verifyFireBaseToken verifyIdToken req = ⟨some unauthorized, 0, req, [token]⟩ := by
  simp [verifyFireBaseToken, hh, header_ne_empty ht, ht, hne, hv]

theorem serve_of_accept (verifyIdToken : Verifier) (fresh : ObjectId) (r : Route)
    (req : Request) (s : Store) (header token : String) (info : AuthInfo)
    (hg : usesGate r = true) (hh : req.authorization = some header)
    (ht : (jsSplit ' ' header)[1]? = some token) (hne : token ≠ "")
    (hv : verifyIdToken token = some info) :
    serve verifyIdToken fresh r req s =
      ⟨(handler fresh r { req with token_email := info.email } s).response,
       (handler fresh r { req with token_email := info.email } s).store, [token], 1,
       (handler fresh r { req with token_email := info.email } s).ops,
       (handler fresh r { req with token_email := info.email } s).covered⟩ := by
  simp [serve, hg, gate_accepts verifyIdToken req header token info hh ht hne hv]

/-! ## Auth Gate: the claims -/

/-- C1: the routes registered with the gate are exactly the eight protected routes, and
on each of them a request without an `Authorization` header is answered 401; the verifier is not called, the handler does not run, no storage
call is made and both collections are as before. -/
theorem C1_missing_authorization (verifyIdToken : Verifier) (fresh : ObjectId) (r : Route)
    (req : Request) (s : Store) (hr : r ∈ protectedRoutes)
    (hh : req.authorization = none) :
    usesGate r = true ∧
    (∀ r2 : Route, usesGate r2 = true ↔ r2 ∈ protectedRoutes) ∧
    (serve verifyIdToken fresh r req s).response = some unauthorized ∧
    unauthorized.status = 401 ∧
    (serve verifyIdToken fresh r req s).verifierCalls = [] ∧
    (serve verifyIdToken fresh r req s).handlerRuns = 0 ∧
    (serve verifyIdToken fresh r req s).storageOps = [] ∧
    (serve verifyIdToken fresh r req s).store = s := by
  have hg := usesGate_of_mem hr
  have hall : ∀ r2 : Route, usesGate r2 = true ↔ r2 ∈ protectedRoutes := by
    intro r2
    cases r2 <;> simp [usesGate, protectedRoutes]
  refine ⟨hg, hall, ?_⟩
  simp [serve, hg, verifyFireBaseToken, hh, unauthorized]

theorem C1_missing_authorization_witness :
    (serve sampleVerifier idA .deleteProduct
        { params := { id := "aaaaaaaaaaaaaaaaaaaaaaaa" } }
        ⟨[[("_id", .oid idA)]], []⟩).response = some unauthorized ∧
    (serve sampleVerifier idA .deleteProduct
        { params := { id := "aaaaaaaaaaaaaaaaaaaaaaaa" } }
        ⟨[[("_id", .oid idA)]], []⟩).store = ⟨[[("_id", .oid idA)]], []⟩ :=
  have h := C1_missing_authorization sampleVerifier idA .deleteProduct
    { params := { id := "aaaaaaaaaaaaaaaaaaaaaaaa" } } ⟨[[("_id", .oid idA)]], []⟩
    (by decide) rfl
  ⟨h.2.2.1, h.2.2.2.2.2.2.2⟩

/-- C2: on a protected route, when the header yields a non-empty token: if the verifier
rejects it the gate answers 401, leaves the request untouched, does not call `next`, the
handler does not run and the store is as before; if the verifier accepts it with some
email, the gate sends nothing, stores that email as `token_email` and calls `next`
exactly once, so the handler runs once. -/
theorem C2_gate_verdict (verifyIdToken : Verifier) (fresh : ObjectId) (r : Route)
    (req : Request) (s : Store) (header token : String) (hr : r ∈ protectedRoutes)
    (hh : req.authorization = some header)
    (ht : (jsSplit ' ' header)[1]? = some token) (hne : token ≠ "") :
    (verifyIdToken token = none →
      (verifyFireBaseToken verifyIdToken req).response = some unauthorized ∧
      unauthorized.status = 401 ∧
      (verifyFireBaseToken verifyIdToken req).req = req ∧
      (verifyFireBaseToken verifyIdToken req).nextCalls = 0 ∧
      (serve verifyIdToken fresh r req s).response = some unauthorized ∧
      (serve verifyIdToken fresh r req s).handlerRuns = 0 ∧
      (serve verifyIdToken fresh r req s).storageOps = [] ∧
      (serve verifyIdToken fresh r req s).store = s) ∧
    (∀ info : AuthInfo, verifyIdToken token = some info →
      (verifyFireBaseToken verifyIdToken req).response = none ∧
      (verifyFireBaseToken verifyIdToken req).req = { req with token_email := info.email } ∧
      (verifyFireBaseToken verifyIdToken req).nextCalls = 1 ∧
      (verifyFireBaseToken verifyIdToken req).verifierCalls = [token] ∧
      (serve verifyIdToken fresh r req s).handlerRuns = 1 ∧
      (serve verifyIdToken fresh r req s).response =
        (handler fresh r { req with token_email := info.email } s).response) := by
  have hg := usesGate_of_mem hr
  constructor
  · intro hv
    have hgate := gate_rejects verifyIdToken req header token hh ht hne hv
    simp [serve, hg, hgate, unauthorized]
  · intro info hv
    have hgate := gate_accepts verifyIdToken req header token info hh ht hne hv
    simp [serve, hg, hgate]

theorem C2_gate_verdict_witness :
    (serve sampleVerifier idA .postBids { authorization := some "Bearer nope" }
        emptyStore).response = some unauthorized ∧
    (verifyFireBaseToken sampleVerifier { authorization := some "Bearer tok" }).req =
      { authorization := some "Bearer tok", token_email := some "alice@x.com" } :=
  ⟨((C2_gate_verdict sampleVerifier idA .postBids { authorization := some "Bearer nope" }
      emptyStore "Bearer nope" "nope" (by decide) rfl (by decide) (by decide)).1
      (by decide)).2.2.2.2.1,
   ((C2_gate_verdict sampleVerifier idA .postBids { authorization := some "Bearer tok" }
      emptyStore "Bearer tok" "tok" (by decide) rfl (by decide) (by decide)).2
      ⟨some "alice@x.com"⟩ (by decide)).2.1⟩

/-- C3: on `GET /myProducts/:email` and `GET /bids/user/:email`, when the verifier
resolves the token to an email different from the path parameter the answer is 403 with
the message body only, no storage call is made and the store is as before; strings are
compared exactly.  When the two are equal the handler queries the store and answers 200
with a list of documents. -/
theorem C3_ownership_check (verifyIdToken : Verifier) (fresh : ObjectId) (r : Route)
    (req : Request) (s : Store) (header token e : String) (info : AuthInfo)
    (hr : r = .getMyProducts ∨ r = .getBidsByUser)
    (hh : req.authorization = some header)
    (ht : (jsSplit ' ' header)[1]? = some token) (hne : token ≠ "")
    (hv : verifyIdToken token = some info) (he : info.email = some e) :
    (e ≠ req.params.email →
      (serve verifyIdToken fresh r req s).response =
        some ⟨403, .message "Forbidden Access"⟩ ∧
      (serve verifyIdToken fresh r req s).storageOps = [] ∧
      (serve verifyIdToken fresh r req s).store = s) ∧
    (e = req.params.email →
      ∃ ds, (serve verifyIdToken fresh r req s).response = some ⟨200, .documents ds⟩ ∧
        (serve verifyIdToken fresh r req s).storageOps ≠ []) := by
  have hg : usesGate r = true := by rcases hr with h | h <;> subst h <;> rfl
  rw [serve_of_accept verifyIdToken fresh r req s header token info hg hh ht hne hv]
  constructor
  · intro hne'
    rcases hr with h | h <;> subst h <;>
      simp [handler, getMyProducts, getBidsByUser, he, hne', forbidden]
  · intro heq
    rcases hr with h | h <;> subst h <;>
      simp [handler, getMyProducts, getBidsByUser, he, heq, send]

theorem C3_ownership_check_witness :
    (serve sampleVerifier idA .getMyProducts
        { authorization := some "Bearer tok", params := { email := "Alice@x.com" } }
        ⟨[[("_id", .oid idA), ("email", .str "Alice@x.com")]], []⟩).response =
      some ⟨403, .message "Forbidden Access"⟩ :=
  ((C3_ownership_check sampleVerifier idA .getMyProducts
      { authorization := some "Bearer tok", params := { email := "Alice@x.com" } }
      ⟨[[("_id", .oid idA), ("email", .str "Alice@x.com")]], []⟩
      "Bearer tok" "tok" "alice@x.com" ⟨some "alice@x.com"⟩
      (Or.inl rfl) rfl (by decide) (by decide) (by decide) rfl).1 (by decide)).1

/-- C4 (as stated, refuted): the second white-space-delimited segment of `Bearer  tok`
(two spaces) and of `Bearer<TAB>tok` is `tok`, yet the gate answers both 401 without
calling a verifier that would accept `tok`; and ` tok` has no second segment, yet the
gate hands `tok` to the verifier. -/
theorem C4_whitespace_segments_refuted :
    specSecondSegment "Bearer  tok" = some "tok" ∧
    (verifyFireBaseToken acceptAll { authorization := some "Bearer  tok" }).response =
      some unauthorized ∧
    (verifyFireBaseToken acceptAll { authorization := some "Bearer  tok" }).verifierCalls = [] ∧
    specSecondSegment "Bearer\ttok" = some "tok" ∧
    (verifyFireBaseToken acceptAll { authorization := some "Bearer\ttok" }).response =
      some unauthorized ∧
    (verifyFireBaseToken acceptAll { authorization := some "Bearer\ttok" }).verifierCalls = [] ∧
    specSecondSegment " tok" = none ∧
    (verifyFireBaseToken acceptAll { authorization := some " tok" }).verifierCalls = ["tok"] := by
  decide

/-- C4 (amended): the token is the text between the first space (U+0020) of the header
and the next one, or the end.  When that text is not empty it is what the verifier is
called with, exactly once; when it is empty, or the header holds no space at all, the
gate answers 401 without calling the verifier. -/
theorem C4_token_between_spaces (verifyIdToken : Verifier) (req : Request) (header : String)
    (hh : req.authorization = some header) :
    (∀ a rest : List Char, header.toList = a ++ ' ' :: rest → ' ' ∉ a →
      (rest.takeWhile (fun c => decide (c ≠ ' ')) ≠ [] →
        (verifyFireBaseToken verifyIdToken req).verifierCalls =
          [String.mk (rest.takeWhile (fun c => decide (c ≠ ' ')))]) ∧
      (rest.takeWhile (fun c => decide (c ≠ ' ')) = [] →
        (verifyFireBaseToken verifyIdToken req).response = some unauthorized ∧
        (verifyFireBaseToken verifyIdToken req).nextCalls = 0 ∧
        (verifyFireBaseToken verifyIdToken req).verifierCalls = [])) ∧
    (' ' ∉ header.toList →
      (verifyFireBaseToken verifyIdToken req).response = some unauthorized ∧
      (verifyFireBaseToken verifyIdToken req).nextCalls = 0 ∧
      (verifyFireBaseToken verifyIdToken req).verifierCalls = []) := by
  constructor
  · intro a rest hd ha
    have h1 := jsSplit_second header a rest hd ha
    have hne := header_ne_empty h1
    constructor
    · intro ht
      have htok : String.mk (rest.takeWhile (fun c => decide (c ≠ ' '))) ≠ "" := by
        intro e
        exact ht (congrArg String.data e)
      cases hv : verifyIdToken (String.mk (rest.takeWhile (fun c => decide (c ≠ ' ')))) with
      | none => rw [gate_rejects verifyIdToken req header _ hh h1 htok hv]
      | some info => rw [gate_accepts verifyIdToken req header _ info hh h1 htok hv]
    · intro ht
      rw [ht] at h1
      have h2 : (jsSplit ' ' header)[1]? = some "" := h1
      simp [verifyFireBaseToken, hh, hne, h2]
  · intro hns
    have h1 := jsSplit_second_none header hns
    by_cases hne : header = "" <;> simp [verifyFireBaseToken, hh, hne, h1]

theorem C4_token_between_spaces_witness :
    (verifyFireBaseToken sampleVerifier { authorization := some "Bearer tok extra" }).verifierCalls
      = ["tok"] :=
  ((C4_token_between_spaces sampleVerifier { authorization := some "Bearer tok extra" }
      "Bearer tok extra" rfl).1 "Bearer".toList "tok extra".toList (by decide) (by decide)).1
    (by decide)

/-! ## `parseInt` on decimal strings -/

theorem digitValue_decChar : ∀ d : Fin 10, digitValue (decChar d) = some d.val := by decide

theorem decChar_not_space : ∀ d : Fin 10, isStrWhiteSpaceChar (decChar d) = false := by decide

theorem decChar_ne_special : ∀ d : Fin 10,
    decChar d ≠ '-' ∧ decChar d ≠ '+' ∧ decChar d ≠ 'x' ∧ decChar d ≠ 'X' := by decide

theorem digitsValue_append (r : Nat) (xs : List Nat) (d : Nat) :
    digitsValue r (xs ++ [d]) = digitsValue r xs * r + d := by
  simp [digitsValue, List.foldl_append]

theorem toDigitsCore_decimal (fuel : Nat) : ∀ (n : Nat) (ds : List Char), n < fuel →
    ∃ pre : List (Fin 10), pre ≠ [] ∧
      Nat.toDigitsCore 10 fuel n ds = pre.map decChar ++ ds ∧
      digitsValue 10 (pre.map Fin.val) = n := by
  induction fuel with
  | zero => intro n ds h; omega
  | succ fuel ih =>
    intro n ds h
    have hlt : n % 10 < 10 := Nat.mod_lt _ (by decide)
    unfold Nat.toDigitsCore
    by_cases h0 : n / 10 = 0
    · refine ⟨[⟨n % 10, hlt⟩], by simp, ?_, ?_⟩
      · simp [h0, decChar]
      · simp [digitsValue]
        omega
    · have hn : n / 10 < fuel := by omega
      obtain ⟨pre, hpre, heq, hval⟩ := ih (n / 10) (Nat.digitChar (n % 10) :: ds) hn
      refine ⟨pre ++ [⟨n % 10, hlt⟩], by simp, ?_, ?_⟩
      · simp [h0, heq, decChar]
      · rw [List.map_append, List.map_singleton, digitsValue_append, hval]
        simp
        omega

theorem toString_decimal (n : Nat) :
    ∃ pre : List (Fin 10), pre ≠ [] ∧ (toString n).toList = pre.map decChar ∧
      digitsValue 10 (pre.map Fin.val) = n := by
  obtain ⟨pre, hpre, heq, hval⟩ := toDigitsCore_decimal (n + 1) n [] (Nat.lt_succ_self n)
  refine ⟨pre, hpre, ?_, hval⟩
  show (Nat.repr n).toList = _
  simp [Nat.repr, Nat.toDigits, heq, List.asString]

theorem takeDigits_decimal (pre : List (Fin 10)) :
    takeDigits 10 (pre.map decChar) = pre.map Fin.val := by
  induction pre with
  | nil => rfl
  | cons d ds ih => simp [takeDigits, digitValue_decChar, ih]

theorem parseInt_toString (n : Nat) :
    parseInt (toString n) =
      match toDouble n with
      | some m => .fin (m : Int)
      | none => .posInf := by
  obtain ⟨pre, hpre, heq, hval⟩ := toString_decimal n
  cases pre with
  | nil => exact absurd rfl hpre
  | cons d ds =>
    have hsp := decChar_not_space d
    obtain ⟨h1, h2, h3, h4⟩ := decChar_ne_special d
    have hdrop : (toString n).toList.dropWhile isStrWhiteSpaceChar = decChar d :: ds.map decChar := by
      rw [heq]; simp [List.dropWhile, hsp]
    have hsign : splitSign (decChar d :: ds.map decChar) = (false, decChar d :: ds.map decChar) := by
      unfold splitSign
      split
      · rename_i heq2; simp at heq2; exact absurd heq2.1 h1
      · rename_i heq2; simp at heq2; exact absurd heq2.1 h2
      · rfl
    have hradix : splitRadix (decChar d :: ds.map decChar) = (10, decChar d :: ds.map decChar) := by
      unfold splitRadix
      split
      · rename_i t heq2
        cases ds with
        | nil => simp at heq2
        | cons e es => simp at heq2; exact absurd heq2.2.1 (decChar_ne_special e).2.2.1
      · rename_i t heq2
        cases ds with
        | nil => simp at heq2
        | cons e es => simp at heq2; exact absurd heq2.2.1 (decChar_ne_special e).2.2.2
      · rfl
    have htake := takeDigits_decimal (d :: ds)
    simp only [List.map_cons] at htake hval
    simp only [parseInt, hdrop, hsign, hradix, htake, hval]
    cases toDouble n <;> simp

set_option maxRecDepth 100000 in
theorem toDouble_at_bound : toDouble 9007199254740992 = some 9007199254740992 := by
  decide

theorem toDouble_exact (n : Nat) (h : n ≤ 9007199254740992) : toDouble n = some n := by
  rcases Nat.lt_or_eq_of_le h with h1 | h1
  · simp [toDouble, h1]
  · subst h1
    exact toDouble_at_bound

set_option maxRecDepth 100000 in
theorem parseInt_above_bound : parseInt "9007199254740993" = .fin 9007199254740992 := by
  decide

set_option maxRecDepth 100000 in
theorem parseInt_nines310 : parseInt nines310 = .posInf := by
  decide

set_option maxRecDepth 100000 in
theorem nines310_length : nines310.length = 310 := by
  decide

theorem parseInt_toString_exact (n : Nat) (h : n ≤ 9007199254740992) :
    parseInt (toString n) = .fin (n : Int) := by
  rw [parseInt_toString, toDouble_exact n h]



/-! ## Sorting by `created_at` -/

theorem valueLe_total (a b : Value) : Value.le a b = true ∨ Value.le b a = true := by
  cases a <;> cases b <;> simp [Value.le, Value.rank]
  · rename_i x y; cases x <;> cases y <;> simp
  · exact Int.le_total _ _
  · exact le_total _ _
  · exact Nat.le_total _ _

theorem valueLe_trans (a b c : Value) (h1 : Value.le a b = true) (h2 : Value.le b c = true) :
    Value.le a c = true := by
  cases a <;> cases b <;> cases c <;> simp_all [Value.le, Value.rank]
  · rename_i x y z; cases x <;> cases y <;> cases z <;> simp_all
  · exact Int.le_trans h1 h2
  · exact le_trans h1 h2
  · exact Nat.le_trans h1 h2

theorem createdDesc_total : IsTotal Document createdDesc :=
  ⟨fun a b => valueLe_total (createdAt b) (createdAt a)⟩

theorem createdDesc_trans : IsTrans Document createdDesc :=
  ⟨fun a b c hab hbc => valueLe_trans (createdAt c) (createdAt b) (createdAt a) hbc hab⟩

theorem sortCreatedAtDesc_perm (ds : List Document) : (sortCreatedAtDesc ds).Perm ds :=
  List.perm_insertionSort createdDesc ds

theorem sortCreatedAtDesc_sorted (ds : List Document) :
    (sortCreatedAtDesc ds).Pairwise createdDesc :=
  @List.sorted_insertionSort _ createdDesc _ createdDesc_total createdDesc_trans ds

theorem sortCreatedAtDesc_length (ds : List Document) :
    (sortCreatedAtDesc ds).length = ds.length :=
  (sortCreatedAtDesc_perm ds).length_eq

theorem cursorLimit_pos (n : Nat) (hn : 0 < n) (hb : n < 9223372036854775808)
    (ds : List Document) : cursorLimit (.fin (n : Int)) ds = some (ds.take n) := by
  have h : (n : Int) ≠ 0 := by omega
  simp [cursorLimit, h, hb]

theorem recentLimit_decimal (req : Request) (n : Nat) (hn : 0 < n)
    (hb : n ≤ 9007199254740992) (hl : req.limit = some (toString n)) :
    recentLimit req = .fin (n : Int) := by
  have h : (n : Int) ≠ 0 := by omega
  simp [recentLimit, hl, jsToString, parseInt_toString_exact n hb, JSNumber.truthy, h]

theorem recentLimit_nan (req : Request) (h : parseInt (jsToString req.limit) = .nan) :
    recentLimit req = .fin 6 := by
  simp [recentLimit, h, JSNumber.truthy]

theorem serve_getRecentProducts (verifyIdToken : Verifier) (fresh : ObjectId) (req : Request)
    (s : Store) :
    serve verifyIdToken fresh .getRecentProducts req s =
      ⟨(getRecentProducts req s).response, (getRecentProducts req s).store, [], 1,
       (getRecentProducts req s).ops, (getRecentProducts req s).covered⟩ := by
  simp [serve, usesGate, handler]

theorem getRecentProducts_store (req : Request) (s : Store) :
    (getRecentProducts req s).store = s := by
  unfold getRecentProducts
  split <;> rfl

theorem getRecentProducts_ops (req : Request) (s : Store) :
    (getRecentProducts req s).ops = [.find .products none (some (recentLimit req))] := by
  unfold getRecentProducts
  split <;> rfl

theorem recentProducts_of_limit (verifyIdToken : Verifier) (fresh : ObjectId) (req : Request)
    (s : Store) (n : Nat) (hn : 0 < n) (hb : n < 9223372036854775808)
    (h : recentLimit req = .fin (n : Int)) :
    serve verifyIdToken fresh .getRecentProducts req s =
      ⟨some ⟨200, .documents ((sortCreatedAtDesc s.products).take n)⟩, s, [], 1,
        [.find .products none (some (.fin (n : Int)))], true⟩ := by
  simp [serve, usesGate, handler, getRecentProducts, h, cursorLimit_pos n hn hb, send]

theorem hugeStore_length : hugeStore.products.length = 9007199254740993 :=
  List.length_replicate _ _

theorem recentProducts_one_short (verifyIdToken : Verifier) (fresh : ObjectId) (req : Request)
    (s : Store) (hlen : s.products.length = 9007199254740993)
    (hl : recentLimit req = .fin ((9007199254740992 : Nat) : Int)) :
    (serve verifyIdToken fresh .getRecentProducts req s).response ≠
      some ⟨200, .documents ((sortCreatedAtDesc s.products).take 9007199254740993)⟩ := by
  rw [recentProducts_of_limit verifyIdToken fresh req s 9007199254740992 (by decide)
    (by decide) hl]
  intro h
  have h1 := (Response.mk.inj (Option.some.inj h)).2
  have h2 := Payload.documents.inj h1
  have h3 := congrArg List.length h2
  rw [List.length_take, List.length_take, sortCreatedAtDesc_length, hlen] at h3
  omega

/-! ## `GET /recentProducts`: the claims -/

/-- C5 (as stated, refuted): for the limit `9007199254740993`, the decimal text of
`2 ^ 53 + 1`, the handler queries with limit `9007199254740992`, the double `parseInt`
returns, so on a collection of 9007199254740993 products it answers with one document
fewer than the first `N`. -/
theorem C5_beyond_exact_doubles_refuted :
    toString 9007199254740993 = "9007199254740993" ∧
    (serve acceptAll idA .getRecentProducts { limit := some "9007199254740993" }
        emptyStore).storageOps = [.find .products none (some (.fin 9007199254740992))] ∧
    (serve acceptAll idA .getRecentProducts { limit := some "9007199254740993" }
        hugeStore).response ≠
      some ⟨200, .documents ((sortCreatedAtDesc hugeStore.products).take 9007199254740993)⟩ := by
  have hl : recentLimit { limit := some "9007199254740993" } =
      .fin ((9007199254740992 : Nat) : Int) := by
    simp only [recentLimit, jsToString, parseInt_above_bound]; rfl
  refine ⟨by decide, ?_, ?_⟩
  · rw [recentProducts_of_limit acceptAll idA _ emptyStore 9007199254740992 (by decide)
      (by decide) hl]
    rfl
  · exact recentProducts_one_short acceptAll idA _ hugeStore hugeStore_length hl

/-- C5 (amended): `GET /recentProducts` answers with the first `L` products in
`created_at` descending order (a rearrangement of the collection in which no document
comes before a newer one), all of them when there are fewer, so at most `L`; `L` is `N`
when the limit is the decimal text of a positive integer `N` up to
`2 ^ 53 = 9007199254740992`, and 6 when the limit is absent or does not parse (as `abc`
and the empty string do not).  The store is left as it was. -/
theorem C5_recent_products (verifyIdToken : Verifier) (fresh : ObjectId) (req : Request)
    (s : Store) :
    (sortCreatedAtDesc s.products).Perm s.products ∧
    (sortCreatedAtDesc s.products).Pairwise createdDesc ∧
    (∀ N : Nat, 0 < N → N ≤ 9007199254740992 → req.limit = some (toString N) →
      (serve verifyIdToken fresh .getRecentProducts req s).response =
        some ⟨200, .documents ((sortCreatedAtDesc s.products).take N)⟩ ∧
      ((sortCreatedAtDesc s.products).take N).length = min N s.products.length ∧
      ((sortCreatedAtDesc s.products).take N).length ≤ N) ∧
    (req.limit = none →
      (serve verifyIdToken fresh .getRecentProducts req s).response =
        some ⟨200, .documents ((sortCreatedAtDesc s.products).take 6)⟩) ∧
    (∀ t : String, req.limit = some t → parseInt t = .nan →
      (serve verifyIdToken fresh .getRecentProducts req s).response =
        some ⟨200, .documents ((sortCreatedAtDesc s.products).take 6)⟩) ∧
    parseInt "abc" = .nan ∧ parseInt "" = .nan ∧
    (serve verifyIdToken fresh .getRecentProducts req s).store = s := by
  have hstore : (serve verifyIdToken fresh .getRecentProducts req s).store = s := by
    rw [serve_getRecentProducts]
    exact getRecentProducts_store req s
  refine ⟨sortCreatedAtDesc_perm _, sortCreatedAtDesc_sorted _, ?_, ?_, ?_, by decide,
    by decide, hstore⟩
  · intro N hN hb hl
    have h1 := recentLimit_decimal req N hN hb hl
    refine ⟨?_, ?_, ?_⟩
    · rw [recentProducts_of_limit verifyIdToken fresh req s N hN (by omega) h1]
    · simp [List.length_take, sortCreatedAtDesc_length]
    · simp [List.length_take]
  · intro hl
    have h1 : recentLimit req = .fin ((6 : Nat) : Int) :=
      recentLimit_nan req (by rw [hl]; decide)
    rw [recentProducts_of_limit verifyIdToken fresh req s 6 (by decide) (by decide) h1]
  · intro t hl ht
    have h1 : recentLimit req = .fin ((6 : Nat) : Int) :=
      recentLimit_nan req (by rw [hl]; exact ht)
    rw [recentProducts_of_limit verifyIdToken fresh req s 6 (by decide) (by decide) h1]

theorem C5_recent_products_witness :
    (serve sampleVerifier idA .getRecentProducts { limit := some (toString 1) }
        ⟨[[("created_at", .num 1)], [("created_at", .num 2)]], []⟩).response =
      some ⟨200, .documents ((sortCreatedAtDesc
        [[("created_at", .num 1)], [("created_at", .num 2)]]).take 1)⟩ :=
  ((C5_recent_products sampleVerifier idA { limit := some (toString 1) }
      ⟨[[("created_at", .num 1)], [("created_at", .num 2)]], []⟩).2.2.1 1 (by decide)
      (by decide) rfl).1

/-- C9 (as stated, refuted): for a limit of 310 nines `parseInt` returns Infinity, which
is not an integer, and the handler passes Infinity to the storage layer, not 6. -/
theorem C9_infinite_limit_refuted :
    nines310.length = 310 ∧
    parseInt nines310 = .posInf ∧
    (∀ n : Int, parseInt nines310 ≠ .fin n) ∧
    (serve acceptAll idA .getRecentProducts { limit := some nines310 } emptyStore).storageOps =
      [.find .products none (some .posInf)] ∧
    (serve acceptAll idA .getRecentProducts { limit := some nines310 } emptyStore).storageOps ≠
      [.find .products none (some (.fin 6))] := by
  have h : parseInt nines310 = .posInf := parseInt_nines310
  have hl : recentLimit { limit := some nines310 } = .posInf := by
    simp [recentLimit, jsToString, h, JSNumber.truthy]
  have hops : (serve acceptAll idA .getRecentProducts { limit := some nines310 }
      emptyStore).storageOps = [.find .products none (some .posInf)] := by
    simp [serve, usesGate, handler, getRecentProducts, hl, cursorLimit]
  refine ⟨nines310_length, h, ?_, hops, ?_⟩
  · intro n hn
    rw [h] at hn
    cases hn
  · rw [hops]
    decide

/-- C9 (amended): the limit `GET /recentProducts` passes to the storage layer is
`parseInt` of the limit text when that is neither `NaN` nor zero, that is an integer
other than zero (rounded to a double beyond `2 ^ 53`) or an infinity, and 6 otherwise.
So `0` gives 6, `3abc` gives 3, `-3` is passed on as -3, and `9007199254740993` is
passed on as 9007199254740992. -/
theorem C9_limit_passed_to_storage (verifyIdToken : Verifier) (fresh : ObjectId)
    (req : Request) (s : Store) :
    (serve verifyIdToken fresh .getRecentProducts req s).storageOps =
      [.find .products none (some
        (match parseInt (jsToString req.limit) with
          | .nan => .fin 6
          | .fin n => if n ≠ 0 then .fin n else .fin 6
          | .posInf => .posInf
          | .negInf => .negInf))] ∧
    parseInt "0" = .fin 0 ∧
    (serve verifyIdToken fresh .getRecentProducts { req with limit := some "0" } s).storageOps =
      [.find .products none (some (.fin 6))] ∧
    (serve verifyIdToken fresh .getRecentProducts { req with limit := some "3abc" } s).storageOps =
      [.find .products none (some (.fin 3))] ∧
    (serve verifyIdToken fresh .getRecentProducts { req with limit := some "-3" } s).storageOps =
      [.find .products none (some (.fin (-3)))] ∧
    (serve verifyIdToken fresh .getRecentProducts
        { req with limit := some "9007199254740993" } s).storageOps =
      [.find .products none (some (.fin 9007199254740992))] := by
  have hops : ∀ r : Request, (serve verifyIdToken fresh .getRecentProducts r s).storageOps =
      [.find .products none (some (recentLimit r))] := by
    intro r
    rw [serve_getRecentProducts]
    exact getRecentProducts_ops r s
  have e0 : recentLimit { req with limit := some "0" } = .fin 6 := by
    simp only [recentLimit, jsToString, show parseInt "0" = .fin 0 by decide]; rfl
  have e1 : recentLimit { req with limit := some "3abc" } = .fin 3 := by
    simp only [recentLimit, jsToString, show parseInt "3abc" = .fin 3 by decide]; rfl
  have e2 : recentLimit { req with limit := some "-3" } = .fin (-3) := by
    simp only [recentLimit, jsToString, show parseInt "-3" = .fin (-3) by decide]; rfl
  have e3 : recentLimit { req with limit := some "9007199254740993" } =
      .fin 9007199254740992 := by
    simp only [recentLimit, jsToString, parseInt_above_bound]; rfl
  refine ⟨?_, by decide, ?_, ?_, ?_, ?_⟩
  · rw [hops]
    simp only [recentLimit]
    cases parseInt (jsToString req.limit) with
    | nan => simp [JSNumber.truthy]
    | fin n => by_cases hn : n = 0 <;> simp [JSNumber.truthy, hn]
    | posInf => simp [JSNumber.truthy]
    | negInf => simp [JSNumber.truthy]
  · rw [hops, e0]
  · rw [hops, e1]
  · rw [hops, e2]
  · rw [hops, e3]

/-! ## Storage: lemmas -/

theorem hexValue_hexChar : ∀ n : Fin 16, hexValue (hexChar n) = some n := by decide

theorem hexDigits_hexChar (l : List (Fin 16)) :
    hexDigits (l.map hexChar) = some l := by
  induction l with
  | nil => rfl
  | cons n ns ih => simp [hexDigits, hexValue_hexChar, ih]

theorem ofString_toHexString (o : ObjectId) : ObjectId.ofString? o.toHexString = some o := by
  obtain ⟨l, hl⟩ := o
  simp [ObjectId.ofString?, ObjectId.toHexString, hexDigits_hexChar, hl]

theorem get_append_of_none (d e : Document) (k : String) (h : d.get k = none) :
    Document.get (d ++ e) k = Document.get e k := by
  induction d with
  | nil => rfl
  | cons x xs ih =>
    obtain ⟨a, b⟩ := x
    simp only [Document.get, List.cons_append, List.lookup_cons] at h ⊢
    cases hk : (k == a) with
    | true => simp [hk] at h
    | false =>
      simp only [hk] at h ⊢
      exact ih h

theorem get_append_of_some (d e : Document) (k : String) (v : Value) (h : d.get k = some v) :
    Document.get (d ++ e) k = some v := by
  induction d with
  | nil => cases h
  | cons x xs ih =>
    obtain ⟨a, b⟩ := x
    simp only [Document.get, List.cons_append, List.lookup_cons] at h ⊢
    cases hk : (k == a) with
    | true => simpa [hk] using h
    | false =>
      simp only [hk] at h ⊢
      exact ih h

theorem hasId_eq_false {id : Value} {d : Document} (h : d.get "_id" ≠ some id) :
    hasId id d = false := by
  simp [hasId, matchesField, h]

theorem hasId_eq_true {id : Value} {d : Document} (h : d.get "_id" = some id) :
    hasId id d = true := by
  simp [hasId, matchesField, h]

theorem get_id_of_hasId {id : Value} {d : Document} (h : hasId id d = true) :
    d.get "_id" = some id := by
  simpa [hasId, matchesField] using h


theorem gate_of_authenticated (verifyIdToken : Verifier) (req : Request)
    (h : authenticated verifyIdToken req) :
    ∃ token info, verifyIdToken token = some info ∧
      verifyFireBaseToken verifyIdToken req =
        ⟨none, 1, { req with token_email := info.email }, [token]⟩ := by
  unfold authenticated verifyFireBaseToken at h
  unfold verifyFireBaseToken
  split at h
  · simp at h
  · split at h
    · simp at h
    · split at h
      · simp at h
      · split at h
        · simp at h
        · split at h
          · rename_i hv
            exact ⟨_, _, hv, by simp [*]⟩
          · simp at h

theorem serve_of_authenticated (verifyIdToken : Verifier) (fresh : ObjectId) (r : Route)
    (req : Request) (s : Store) (hg : usesGate r = true)
    (h : authenticated verifyIdToken req) :
    ∃ token info, verifyIdToken token = some info ∧
      serve verifyIdToken fresh r req s =
        ⟨(handler fresh r { req with token_email := info.email } s).response,
         (handler fresh r { req with token_email := info.email } s).store, [token], 1,
         (handler fresh r { req with token_email := info.email } s).ops,
         (handler fresh r { req with token_email := info.email } s).covered⟩ := by
  obtain ⟨token, info, hv, hgate⟩ := gate_of_authenticated verifyIdToken req h
  exact ⟨token, info, hv, by simp [serve, hg, hgate]⟩

theorem set_id_of_none (d : Document) (v : Value) (h : d.get "_id" = none) :
    d.set "_id" v = d ++ [("_id", v)] := by
  simp [Document.set, h]

theorem findOne_append_fresh (id : ObjectId) (c : List Document) (d : Document)
    (hc : ∀ x ∈ c, x.get "_id" ≠ some (.oid id)) (hd : d.get "_id" = some (.oid id)) :
    findOne id (c ++ [d]) = some d := by
  unfold findOne
  rw [List.find?_append]
  have h1 : c.find? (hasId (.oid id)) = none := by
    rw [List.find?_eq_none]
    intro x hx
    simp [hasId_eq_false (hc x hx)]
  simp [h1, hasId_eq_true hd]

theorem any_hasId_false (id : Value) (c : List Document)
    (hc : ∀ x ∈ c, x.get "_id" ≠ some id) : c.any (hasId id) = false := by
  rw [List.any_eq_false]
  intro x hx
  simp [hasId_eq_false (hc x hx)]

/-- C6 (as stated, refuted): a product posted with an `_id` of its own (here a 24
character hex string) is acknowledged under that identifier, and `GET /products/` with
that identifier then answers 200 with `null`, not the document. -/
theorem C6_own_id_refuted :
    (serve acceptAll idB .postProducts
        { authorization := some "Bearer tok",
          body := [("_id", .str "aaaaaaaaaaaaaaaaaaaaaaaa"), ("title", .str "Lamp")] }
        emptyStore).response = some ⟨200, .inserted (.str "aaaaaaaaaaaaaaaaaaaaaaaa")⟩ ∧
    (Value.str "aaaaaaaaaaaaaaaaaaaaaaaa").toPathSegment = "aaaaaaaaaaaaaaaaaaaaaaaa" ∧
    (serve acceptAll idB .getProductById { params := { id := "aaaaaaaaaaaaaaaaaaaaaaaa" } }
        (serve acceptAll idB .postProducts
          { authorization := some "Bearer tok",
            body := [("_id", .str "aaaaaaaaaaaaaaaaaaaaaaaa"), ("title", .str "Lamp")] }
          emptyStore).store).response = some ⟨200, .document none⟩ := by
  decide

/-- C6 (amended): for a posted product document without an `_id` field, inserted under
an identifier the store does not hold yet, the acknowledgment carries that identifier,
the stored document is the body followed by `_id`, and `GET /products/` with the
identifier answers 200 with that document: every field of the body with its value, and
no other field but `_id`. -/
theorem C6_post_then_get (verifyIdToken : Verifier) (fresh fresh2 : ObjectId)
    (req req2 : Request) (s : Store)
    (hauth : authenticated verifyIdToken req)
    (hid : req.body.get "_id" = none)
    (hfresh : ∀ d ∈ s.products, d.get "_id" ≠ some (.oid fresh))
    (hp : req2.params.id = (Value.oid fresh).toPathSegment) :
    (serve verifyIdToken fresh .postProducts req s).response =
      some ⟨200, .inserted (.oid fresh)⟩ ∧
    (serve verifyIdToken fresh .postProducts req s).store =
      ⟨s.products ++ [req.body ++ [("_id", .oid fresh)]], s.bids⟩ ∧
    (serve verifyIdToken fresh2 .getProductById req2
        (serve verifyIdToken fresh .postProducts req s).store).response =
      some ⟨200, .document (some (req.body ++ [("_id", .oid fresh)]))⟩ ∧
    (∀ k v, req.body.get k = some v →
      Document.get (req.body ++ [("_id", .oid fresh)]) k = some v) ∧
    (∀ k, k ≠ "_id" →
      Document.get (req.body ++ [("_id", .oid fresh)]) k = req.body.get k) := by
  obtain ⟨token, info, hv, hs⟩ :=
    serve_of_authenticated verifyIdToken fresh .postProducts req s rfl hauth
  have hins : insertOne fresh req.body s.products =
      some (.oid fresh, s.products ++ [req.body ++ [("_id", .oid fresh)]]) := by
    simp [insertOne, insertedId, hid, any_hasId_false _ _ hfresh, set_id_of_none _ _ hid]
  have hpost : handler fresh .postProducts { req with token_email := info.email } s =
      ⟨some ⟨200, .inserted (.oid fresh)⟩,
       ⟨s.products ++ [req.body ++ [("_id", .oid fresh)]], s.bids⟩,
       [.insertOne .products req.body], true⟩ := by
    simp [handler, postProducts, hins, send]
  rw [hs, hpost]
  have hget : Document.get (req.body ++ [("_id", Value.oid fresh)]) "_id" =
      some (.oid fresh) := by
    rw [get_append_of_none _ _ _ hid]; rfl
  refine ⟨rfl, rfl, ?_, ?_, ?_⟩
  · have hparse : ObjectId.ofString? req2.params.id = some fresh := by
      rw [hp]; exact ofString_toHexString fresh
    simp [serve, usesGate, handler, getProductById, hparse, send,
      findOne_append_fresh fresh s.products _ hfresh hget]
  · intro k v hk
    exact get_append_of_some _ _ _ _ hk
  · intro k hk
    cases hb : req.body.get k with
    | some v => exact get_append_of_some _ _ _ _ hb
    | none =>
      rw [get_append_of_none _ _ _ hb]
      have hk2 : (k == "_id") = false := by simpa using hk
      simp [Document.get, List.lookup, hk2]

theorem C6_post_then_get_witness :
    (serve sampleVerifier idA .getProductById { params := { id := "aaaaaaaaaaaaaaaaaaaaaaaa" } }
        (serve sampleVerifier idA .postProducts
          { authorization := some "Bearer tok", body := [("title", .str "Lamp")] }
          emptyStore).store).response =
      some ⟨200, .document (some [("title", .str "Lamp"), ("_id", .oid idA)])⟩ :=
  (C6_post_then_get sampleVerifier idA idA
    { authorization := some "Bearer tok", body := [("title", .str "Lamp")] }
    { params := { id := "aaaaaaaaaaaaaaaaaaaaaaaa" } } emptyStore
    (by decide) (by decide) (by decide) (by decide)).2.2.1


theorem eraseP_no_match (id : Value) (c : List Document) (hu : uniqueIds c) :
    ∀ d ∈ c.eraseP (hasId id), d.get "_id" ≠ some id := by
  induction c with
  | nil => intro d hd; simp at hd
  | cons x xs ih =>
    intro d hd
    have hu2 := List.pairwise_cons.mp hu
    by_cases hx : hasId id x = true
    · rw [List.eraseP_cons_of_pos hx] at hd
      intro e
      exact hu2.1 d hd ((get_id_of_hasId hx).trans e.symm)
    · rw [List.eraseP_cons_of_neg hx] at hd
      rcases List.mem_cons.mp hd with h | h
      · subst h
        intro e
        exact hx (hasId_eq_true e)
      · exact ih hu2.2 d h

theorem mem_sortCreatedAtDesc (d : Document) (c : List Document) :
    d ∈ sortCreatedAtDesc c ↔ d ∈ c :=
  (sortCreatedAtDesc_perm c).mem_iff

theorem any_hasId_of_mem (id : Value) (c : List Document) (b : Document) (hb : b ∈ c)
    (hid : b.get "_id" = some id) : c.any (hasId id) = true := by
  rw [List.any_eq_true]
  exact ⟨b, hb, hasId_eq_true hid⟩

/-- C7 (as stated, refuted): a bid posted with an `_id` of its own (a 24 character hex
string) is stored under it; `DELETE /bids/` with that identifier deletes nothing and
`GET /bids/product/` still lists the bid. -/
theorem C7_own_id_refuted :
    (serve acceptAll idB .postBids
        { authorization := some "Bearer tok",
          body := [("_id", .str "aaaaaaaaaaaaaaaaaaaaaaaa"), ("product_id", .str "p1")] }
        emptyStore).store =
      ⟨[], [[("_id", .str "aaaaaaaaaaaaaaaaaaaaaaaa"), ("product_id", .str "p1")]]⟩ ∧
    (serve acceptAll idB .deleteBid
        { authorization := some "Bearer tok", params := { id := "aaaaaaaaaaaaaaaaaaaaaaaa" } }
        ⟨[], [[("_id", .str "aaaaaaaaaaaaaaaaaaaaaaaa"), ("product_id", .str "p1")]]⟩).response =
      some ⟨200, .deleted 0⟩ ∧
    (serve acceptAll idB .getBidsByProduct
        { authorization := some "Bearer tok", params := { productId := "p1" } }
        (serve acceptAll idB .deleteBid
          { authorization := some "Bearer tok", params := { id := "aaaaaaaaaaaaaaaaaaaaaaaa" } }
          ⟨[], [[("_id", .str "aaaaaaaaaaaaaaaaaaaaaaaa"), ("product_id", .str "p1")]]⟩).store).response =
      some ⟨200, .documents
        [[("_id", .str "aaaaaaaaaaaaaaaaaaaaaaaa"), ("product_id", .str "p1")]]⟩ := by
  decide

/-- C7 (amended): for a bid of the collection whose identifier is an `ObjectId` and
whose product reference is `p`, in a store where identifiers are unique, after an
authenticated `DELETE /bids/` with that identifier the authenticated listing
`GET /bids/product/p` holds no document with that identifier, still holds every other
bid that referenced `p`, and the products collection is as before. -/
theorem C7_delete_then_list (verifyIdToken : Verifier) (fresh : ObjectId)
    (req req2 : Request) (s : Store) (b : Document) (i : ObjectId) (p : String)
    (hb : b ∈ s.bids) (hbi : b.get "_id" = some (.oid i))
    (hbp : b.get "product_id" = some (.str p)) (hu : uniqueIds s.bids)
    (hauth : authenticated verifyIdToken req) (hid : req.params.id = i.toHexString)
    (hauth2 : authenticated verifyIdToken req2) (hp : req2.params.productId = p) :
    (serve verifyIdToken fresh .deleteBid req s).response = some ⟨200, .deleted 1⟩ ∧
    (serve verifyIdToken fresh .deleteBid req s).store.products = s.products ∧
    (∃ ds0, (serve verifyIdToken fresh .getBidsByProduct req2 s).response =
        some ⟨200, .documents ds0⟩ ∧ b ∈ ds0) ∧
    ∃ ds, (serve verifyIdToken fresh .getBidsByProduct req2
        (serve verifyIdToken fresh .deleteBid req s).store).response =
          some ⟨200, .documents ds⟩ ∧
      (∀ d ∈ ds, d.get "_id" ≠ some (.oid i)) ∧
      (∀ d ∈ ds, d ∈ s.bids ∧ d.get "product_id" = some (.str p)) ∧
      (∀ d ∈ s.bids, d ≠ b → d.get "product_id" = some (.str p) → d ∈ ds) := by
  obtain ⟨token, info, hv, hs⟩ :=
    serve_of_authenticated verifyIdToken fresh .deleteBid req s rfl hauth
  have hparse : ObjectId.ofString? req.params.id = some i := by
    rw [hid]; exact ofString_toHexString i
  have hdel : handler fresh .deleteBid { req with token_email := info.email } s =
      ⟨some ⟨200, .deleted 1⟩, ⟨s.products, s.bids.eraseP (hasId (.oid i))⟩,
        [.deleteOne .bids i], true⟩ := by
    simp [handler, deleteBid, hparse, deleteOne, send, any_hasId_of_mem _ _ b hb hbi]
  rw [hs, hdel]
  refine ⟨rfl, rfl, ?_, ?_⟩
  · obtain ⟨token0, info0, hv0, hs0⟩ :=
      serve_of_authenticated verifyIdToken fresh .getBidsByProduct req2 s rfl hauth2
    refine ⟨sortCreatedAtDesc (s.bids.filter (matchesField "product_id" (.str p))), ?_, ?_⟩
    · simp only [hs0]
      simp [handler, getBidsByProduct, hp, send]
    · rw [mem_sortCreatedAtDesc, List.mem_filter]
      exact ⟨hb, by simp [matchesField, hbp]⟩
  obtain ⟨token2, info2, hv2, hs2⟩ :=
    serve_of_authenticated verifyIdToken fresh .getBidsByProduct req2
      ⟨s.products, s.bids.eraseP (hasId (.oid i))⟩ rfl hauth2
  refine ⟨sortCreatedAtDesc ((s.bids.eraseP (hasId (.oid i))).filter
    (matchesField "product_id" (.str p))), ?_, ?_, ?_, ?_⟩
  · simp only [hs2]
    simp [handler, getBidsByProduct, hp, send]
  · intro d hd
    rw [mem_sortCreatedAtDesc, List.mem_filter] at hd
    exact eraseP_no_match _ _ hu d hd.1
  · intro d hd
    rw [mem_sortCreatedAtDesc, List.mem_filter] at hd
    refine ⟨List.mem_of_mem_eraseP hd.1, ?_⟩
    simpa [matchesField] using hd.2
  · intro d hd hne hdp
    rw [mem_sortCreatedAtDesc, List.mem_filter]
    have hsym : Symmetric (fun x y : Document => x.get "_id" ≠ y.get "_id") :=
      fun x y h => Ne.symm h
    have hdiff : d.get "_id" ≠ b.get "_id" := List.Pairwise.forall hsym hu hd hb hne
    have hnot : ¬ hasId (.oid i) d = true := by
      intro h
      exact hdiff ((get_id_of_hasId h).trans hbi.symm)
    refine ⟨(List.mem_eraseP_of_neg hnot).mpr hd, ?_⟩
    simp [matchesField, hdp]

theorem C7_delete_then_list_witness :
    (serve sampleVerifier idA .deleteBid
        { authorization := some "Bearer tok", params := { id := "aaaaaaaaaaaaaaaaaaaaaaaa" } }
        ⟨[], [[("_id", .oid idA), ("product_id", .str "p1")],
              [("_id", .oid idB), ("product_id", .str "p1")]]⟩).response =
      some ⟨200, .deleted 1⟩ :=
  (C7_delete_then_list sampleVerifier idA
    { authorization := some "Bearer tok", params := { id := "aaaaaaaaaaaaaaaaaaaaaaaa" } }
    { authorization := some "Bearer tok", params := { productId := "p1" } }
    ⟨[], [[("_id", .oid idA), ("product_id", .str "p1")],
          [("_id", .oid idB), ("product_id", .str "p1")]]⟩
    [("_id", .oid idA), ("product_id", .str "p1")] idA "p1"
    (by decide) (by decide) (by decide) (by unfold uniqueIds; decide) (by decide) (by decide)
    (by decide) rfl).1


theorem get_map_value (doc : Document) (F : String → Value → Value) (k : String) :
    Document.get (doc.map (fun kv => (kv.1, F kv.1 kv.2))) k = (doc.get k).map (F k) := by
  induction doc with
  | nil => rfl
  | cons x xs ih =>
    obtain ⟨a, b⟩ := x
    simp only [Document.get, List.map_cons, List.lookup_cons] at ih ⊢
    cases hk : (k == a) with
    | true =>
      have : k = a := by simpa using hk
      subst this
      simp
    | false => simpa using ih

theorem get_filter_absent (body doc : Document) (k : String) (h : doc.get k = none) :
    Document.get (body.filter (fun kv => (doc.get kv.1).isNone)) k = body.get k := by
  simp only [Document.get] at h ⊢
  induction body with
  | nil => rfl
  | cons x xs ih =>
    obtain ⟨a, b⟩ := x
    by_cases hk : k = a
    · subst hk
      simp [List.filter_cons, h, List.lookup_cons]
    · have hk2 : (k == a) = false := by simpa using hk
      by_cases hf : (List.lookup a doc).isNone = true
      · simp only [List.filter_cons, hf, if_true, List.lookup_cons, hk2]
        exact ih
      · simp only [List.filter_cons, hf, List.lookup_cons, hk2]
        simpa using ih

theorem applySet_get (body doc : Document) (k : String) :
    (applySet body doc).get k =
      match body.get k with
      | some v => some v
      | none => doc.get k := by
  have hmap := get_map_value doc (fun key old => (body.get key).getD old) k
  unfold applySet
  cases hd : doc.get k with
  | some w =>
    rw [hd] at hmap
    rw [get_append_of_some _ _ _ _ hmap]
    cases hb : body.get k <;> simp
  | none =>
    rw [hd] at hmap
    rw [get_append_of_none _ _ _ hmap, get_filter_absent body doc k hd]
    cases hb : body.get k <;> simp

theorem applySet_get_of_some (body doc : Document) (k : String) (v : Value)
    (h : body.get k = some v) : (applySet body doc).get k = some v := by
  rw [applySet_get, h]

theorem applySet_get_of_none (body doc : Document) (k : String)
    (h : body.get k = none) : (applySet body doc).get k = doc.get k := by
  rw [applySet_get, h]

theorem modifyFirst_split {α : Type} (p : α → Bool) (f : α → α) (c : List α) (d : α)
    (h : c.find? p = some d) :
    ∃ pre post, c = pre ++ d :: post ∧ (∀ x ∈ pre, p x = false) ∧
      modifyFirst p f c = pre ++ f d :: post := by
  induction c with
  | nil => cases h
  | cons x xs ih =>
    by_cases hx : p x = true
    · have : x = d := by simpa [List.find?_cons, hx] using h
      subst this
      exact ⟨[], xs, rfl, by simp, by simp [modifyFirst, hx]⟩
    · have hx2 : p x = false := by simpa using hx
      have h2 : xs.find? p = some d := by simpa [List.find?_cons, hx2] using h
      obtain ⟨pre, post, he, hpre, hm⟩ := ih h2
      refine ⟨x :: pre, post, by simp [he], ?_, by simp [modifyFirst, hx2, hm]⟩
      intro y hy
      rcases List.mem_cons.mp hy with e | e
      · subst e; exact hx2
      · exact hpre y e

theorem find_split {α : Type} (p : α → Bool) (pre post : List α) (d : α)
    (hpre : ∀ x ∈ pre, p x = false) (hd : p d = true) :
    (pre ++ d :: post).find? p = some d := by
  rw [List.find?_append]
  have h1 : pre.find? p = none := by
    rw [List.find?_eq_none]
    intro x hx
    simp [hpre x hx]
  simp [h1, List.find?_cons, hd]

theorem find_split_other {α : Type} (q : α → Bool) (pre post : List α) (d e : α)
    (hd : q d = false) (he : q e = false) :
    (pre ++ d :: post).find? q = (pre ++ e :: post).find? q := by
  simp [List.find?_append, List.find?_cons, hd, he]


/-! ## `$set` with plain names: lemmas -/

theorem plainName_parts {k : String} (h : plainName k = true) :
    malformedName k = false ∧ dottedName k = false ∧ (k.toList.head? == some '$') = false := by
  simpa [plainName, and_assoc] using h

theorem mem_of_get {d : Document} {k : String} {v : Value} (h : d.get k = some v) :
    (k, v) ∈ d := by
  induction d with
  | nil => cases h
  | cons x xs ih =>
    obtain ⟨a, b⟩ := x
    simp only [Document.get, List.lookup_cons] at h ih
    cases hk : (k == a) with
    | true =>
      have e : k = a := by simpa using hk
      rw [hk] at h
      have e2 : b = v := Option.some.inj h
      subst e; subst e2
      exact List.mem_cons_self _ _
    | false =>
      rw [hk] at h
      exact List.mem_cons_of_mem _ (ih h)

theorem get_ne_none_of_mem {d : Document} {kv : String × Value} (h : kv ∈ d) :
    d.get kv.1 ≠ none := by
  induction d with
  | nil => cases h
  | cons x xs ih =>
    obtain ⟨a, b⟩ := x
    simp only [Document.get, List.lookup_cons]
    cases hk : (kv.1 == a) with
    | true => simp
    | false =>
      rcases List.mem_cons.mp h with e | e
      · subst e
        simp at hk
      · exact ih e

theorem any_malformed_false (body : Document) (hplain : ∀ kv ∈ body, plainName kv.1 = true) :
    body.any (fun kv => malformedName kv.1) = false := by
  rw [List.any_eq_false]
  intro kv hkv
  simp [(plainName_parts (hplain kv hkv)).1]

theorem any_setRefused_false (id : ObjectId) (d body : Document)
    (hplain : ∀ kv ∈ body, plainName kv.1 = true) (hid : body.get "_id" = none) :
    body.any (setRefused id d) = false := by
  rw [List.any_eq_false]
  intro kv hkv
  obtain ⟨_, h2, h3⟩ := plainName_parts (hplain kv hkv)
  have h4 : (kv.1 == "_id") = false := by
    cases hk : (kv.1 == "_id") with
    | false => rfl
    | true =>
      have e : kv.1 = "_id" := by simpa using hk
      exact absurd (e ▸ hid) (get_ne_none_of_mem hkv)
  simp only [setRefused, h2, h3, h4]
  simp

theorem all_plain_true (body : Document) (hplain : ∀ kv ∈ body, plainName kv.1 = true) :
    body.all (fun kv => plainName kv.1) = true := by
  rw [List.all_eq_true]
  exact hplain

theorem updateOne_plain (id : ObjectId) (body d : Document) (c : List Document)
    (hplain : ∀ kv ∈ body, plainName kv.1 = true) (hid : body.get "_id" = none)
    (hd : findOne id c = some d) :
    updateOne id body c =
      .done 1 (if applySet body d = d then 0 else 1)
        (modifyFirst (hasId (.oid id)) (applySet body) c) := by
  simp [updateOne, any_malformed_false body hplain, hd, any_setRefused_false id d body hplain hid,
    all_plain_true body hplain]

theorem updateOne_plain_none (id : ObjectId) (body : Document) (c : List Document)
    (hplain : ∀ kv ∈ body, plainName kv.1 = true) (hd : findOne id c = none) :
    updateOne id body c = .done 0 0 c := by
  simp [updateOne, any_malformed_false body hplain, hd, all_plain_true body hplain]

theorem putProduct_store_of_none (req : Request) (s : Store) (i : ObjectId)
    (hparse : ObjectId.ofString? req.params.id = some i) (hd : findOne i s.products = none) :
    (putProduct req s).store = s := by
  have hcases : updateOne i req.body s.products = .refused ∨
      updateOne i req.body s.products = .unmodelled ∨
      updateOne i req.body s.products = .done 0 0 s.products := by
    simp only [updateOne, hd]
    split
    · exact Or.inl rfl
    · split
      · exact Or.inr (Or.inr rfl)
      · exact Or.inr (Or.inl rfl)
  rcases hcases with h | h | h <;> simp [putProduct, hparse, h]

theorem putProduct_plain (req : Request) (s : Store) (i : ObjectId) (d : Document)
    (hparse : ObjectId.ofString? req.params.id = some i)
    (hplain : ∀ kv ∈ req.body, plainName kv.1 = true) (hid : req.body.get "_id" = none)
    (hd : findOne i s.products = some d) :
    ∃ pre post, s.products = pre ++ d :: post ∧
      (∀ x ∈ pre, hasId (.oid i) x = false) ∧
      putProduct req s =
        ⟨some ⟨200, .updated 1 (if applySet req.body d = d then 0 else 1)⟩,
         ⟨pre ++ applySet req.body d :: post, s.bids⟩,
         [.updateOne .products i req.body], true⟩ := by
  obtain ⟨pre, post, he, hpre, hm⟩ :=
    modifyFirst_split (hasId (.oid i)) (applySet req.body) s.products d hd
  refine ⟨pre, post, he, hpre, ?_⟩
  simp [putProduct, hparse, updateOne_plain i req.body d s.products hplain hid hd, hm, send]

theorem insertOne_fresh (fresh : ObjectId) (body : Document) (c : List Document)
    (hid : body.get "_id" = none) (hfresh : ∀ d ∈ c, d.get "_id" ≠ some (.oid fresh)) :
    insertOne fresh body c = some (.oid fresh, c ++ [body ++ [("_id", .oid fresh)]]) := by
  simp [insertOne, insertedId, hid, any_hasId_false _ _ hfresh, set_id_of_none _ _ hid]

theorem deleteOne_of_mem (i : ObjectId) (c : List Document) (d : Document)
    (hd : d ∈ c) (hdi : d.get "_id" = some (.oid i)) (hu : uniqueIds c) :
    (deleteOne i c).1 = 1 ∧ d ∉ (deleteOne i c).2 ∧ findOne i (deleteOne i c).2 = none ∧
      (∀ x ∈ c, x ≠ d → x ∈ (deleteOne i c).2) := by
  have hno := eraseP_no_match (.oid i) c hu
  refine ⟨by simp [deleteOne, any_hasId_of_mem _ _ d hd hdi], ?_, ?_, ?_⟩
  · intro hmem
    exact hno d hmem hdi
  · unfold findOne
    rw [List.find?_eq_none]
    intro x hx
    simp [hasId_eq_false (hno x hx)]
  · intro x hx hne
    have hsym : Symmetric (fun a b : Document => a.get "_id" ≠ b.get "_id") :=
      fun a b h => Ne.symm h
    have hdiff : x.get "_id" ≠ d.get "_id" := List.Pairwise.forall hsym hu hx hd hne
    have hnot : ¬ hasId (.oid i) x = true := by
      intro h
      exact hdiff ((get_id_of_hasId h).trans hdi.symm)
    exact (List.mem_eraseP_of_neg hnot).mpr hx

/-! ## `PUT /products/:id`: the claim -/

/-- C8 (as stated, refuted): bodies that are not merged.  With a body that carries `_id`,
a body whose name `title.en` is a path into the string field `title`, a body whose name
starts with `$`, a body with the empty name, and a body whose name is U+0000, the
update is refused: the handler sends nothing, the product is as before and has no field
of that name. -/
theorem C8_unmerged_bodies_refuted :
    (serve acceptAll idB .putProduct
        { authorization := some "Bearer tok", params := { id := "aaaaaaaaaaaaaaaaaaaaaaaa" },
          body := [("_id", .str "x"), ("title", .str "Desk")] }
        ⟨[[("_id", .oid idA), ("title", .str "Lamp")]], []⟩) =
      ⟨none, ⟨[[("_id", .oid idA), ("title", .str "Lamp")]], []⟩, ["tok"], 1,
        [.updateOne .products idA [("_id", .str "x"), ("title", .str "Desk")]], true⟩ ∧
    (serve acceptAll idB .putProduct
        { authorization := some "Bearer tok", params := { id := "aaaaaaaaaaaaaaaaaaaaaaaa" },
          body := [("title.en", .str "Desk")] }
        ⟨[[("_id", .oid idA), ("title", .str "Lamp")]], []⟩) =
      ⟨none, ⟨[[("_id", .oid idA), ("title", .str "Lamp")]], []⟩, ["tok"], 1,
        [.updateOne .products idA [("title.en", .str "Desk")]], true⟩ ∧
    Document.get [("_id", .oid idA), ("title", .str "Lamp")] "title.en" = none ∧
    (serve acceptAll idB .putProduct
        { authorization := some "Bearer tok", params := { id := "aaaaaaaaaaaaaaaaaaaaaaaa" },
          body := [("$title", .str "Desk")] }
        ⟨[[("_id", .oid idA), ("title", .str "Lamp")]], []⟩) =
      ⟨none, ⟨[[("_id", .oid idA), ("title", .str "Lamp")]], []⟩, ["tok"], 1,
        [.updateOne .products idA [("$title", .str "Desk")]], true⟩ ∧
    (serve acceptAll idB .putProduct
        { authorization := some "Bearer tok", params := { id := "aaaaaaaaaaaaaaaaaaaaaaaa" },
          body := [("", .str "Desk")] }
        ⟨[[("_id", .oid idA), ("title", .str "Lamp")]], []⟩) =
      ⟨none, ⟨[[("_id", .oid idA), ("title", .str "Lamp")]], []⟩, ["tok"], 1,
        [.updateOne .products idA [("", .str "Desk")]], true⟩ ∧
    (serve acceptAll idB .putProduct
        { authorization := some "Bearer tok", params := { id := "aaaaaaaaaaaaaaaaaaaaaaaa" },
          body := [(String.mk [Char.ofNat 0], .str "Desk")] }
        ⟨[[("_id", .oid idA), ("title", .str "Lamp")]], []⟩).response = none ∧
    (serve acceptAll idB .putProduct
        { authorization := some "Bearer tok", params := { id := "aaaaaaaaaaaaaaaaaaaaaaaa" },
          body := [(String.mk [Char.ofNat 0], .str "Desk")] }
        ⟨[[("_id", .oid idA), ("title", .str "Lamp")]], []⟩).store =
      ⟨[[("_id", .oid idA), ("title", .str "Lamp")]], []⟩ := by
  decide

/-- C8 (amended): an authenticated `PUT /products/` with the identifier of an existing
product and a body whose names are plain field names (not empty, no `.`, no leading
`$`, no U+0000) and that has no `_id` field merges the body into the first product with
that identifier: afterwards that product has the body's value for every field of the
body and its former value for every other field, every other product and every bid is
as before.  When no product has the identifier, the store is as before whatever the
body is, and nothing is created. -/
theorem C8_put_merges (verifyIdToken : Verifier) (fresh : ObjectId) (req : Request)
    (s : Store) (i : ObjectId)
    (hauth : authenticated verifyIdToken req) (hid : req.params.id = i.toHexString) :
    (∀ d, findOne i s.products = some d → (∀ kv ∈ req.body, plainName kv.1 = true) →
        req.body.get "_id" = none →
      findOne i (serve verifyIdToken fresh .putProduct req s).store.products =
        some (applySet req.body d) ∧
      (∀ k v, req.body.get k = some v → (applySet req.body d).get k = some v) ∧
      (∀ k, req.body.get k = none → (applySet req.body d).get k = d.get k) ∧
      (∀ j, j ≠ i → findOne j (serve verifyIdToken fresh .putProduct req s).store.products =
        findOne j s.products) ∧
      (∃ pre post, s.products = pre ++ d :: post ∧
        (∀ x ∈ pre, x.get "_id" ≠ some (.oid i)) ∧
        (serve verifyIdToken fresh .putProduct req s).store =
          ⟨pre ++ applySet req.body d :: post, s.bids⟩) ∧
      (∃ m, (serve verifyIdToken fresh .putProduct req s).response =
        some ⟨200, .updated 1 m⟩) ∧
      (serve verifyIdToken fresh .putProduct req s).covered = true) ∧
    (findOne i s.products = none →
      (serve verifyIdToken fresh .putProduct req s).store = s ∧
      ((∀ kv ∈ req.body, plainName kv.1 = true) →
        (serve verifyIdToken fresh .putProduct req s).response =
          some ⟨200, .updated 0 0⟩)) := by
  obtain ⟨token, info, hv, hs⟩ :=
    serve_of_authenticated verifyIdToken fresh .putProduct req s rfl hauth
  have hparse : ObjectId.ofString? req.params.id = some i := by
    rw [hid]; exact ofString_toHexString i
  have hhandler : handler fresh .putProduct { req with token_email := info.email } s =
      putProduct { req with token_email := info.email } s := rfl
  rw [hs, hhandler]
  constructor
  · intro d hd hplain hb
    obtain ⟨pre, post, he, hpre, hput⟩ :=
      putProduct_plain { req with token_email := info.email } s i d hparse hplain hb hd
    have hdi : d.get "_id" = some (.oid i) :=
      get_id_of_hasId (List.find?_some hd)
    have hmi : (applySet req.body d).get "_id" = some (.oid i) := by
      rw [applySet_get_of_none _ _ _ hb, hdi]
    rw [hput]
    refine ⟨?_, ?_, ?_, ?_, ⟨pre, post, he, ?_, rfl⟩, ⟨_, rfl⟩, rfl⟩
    · exact find_split _ pre post _ hpre (hasId_eq_true hmi)
    · intro k v hk
      exact applySet_get_of_some _ _ _ _ hk
    · intro k hk
      exact applySet_get_of_none _ _ _ hk
    · intro j hj
      have hne : Value.oid j ≠ Value.oid i := by
        intro e
        exact hj (Value.oid.inj e)
      have h1 : hasId (.oid j) (applySet req.body d) = false :=
        hasId_eq_false (by rw [hmi]; intro e; exact hne (Option.some.inj e).symm)
      have h2 : hasId (.oid j) d = false :=
        hasId_eq_false (by rw [hdi]; intro e; exact hne (Option.some.inj e).symm)
      show findOne j (pre ++ applySet req.body d :: post) = findOne j s.products
      rw [he]
      exact find_split_other _ pre post _ _ h1 h2
    · intro x hx e
      have := hpre x hx
      rw [hasId_eq_true e] at this
      cases this
  · intro hnone
    refine ⟨putProduct_store_of_none _ s i hparse hnone, ?_⟩
    intro hplain
    simp [putProduct, hparse, updateOne_plain_none i req.body s.products hplain hnone, send]

theorem C8_put_merges_witness :
    findOne idA (serve sampleVerifier idB .putProduct
        { authorization := some "Bearer tok", params := { id := "aaaaaaaaaaaaaaaaaaaaaaaa" },
          body := [("title", .str "Desk"), ("price", .num 5)] }
        ⟨[[("_id", .oid idA), ("title", .str "Lamp")]], []⟩).store.products =
      some (applySet [("title", .str "Desk"), ("price", .num 5)]
        [("_id", .oid idA), ("title", .str "Lamp")]) :=
  ((C8_put_merges sampleVerifier idB
      { authorization := some "Bearer tok", params := { id := "aaaaaaaaaaaaaaaaaaaaaaaa" },
        body := [("title", .str "Desk"), ("price", .num 5)] }
      ⟨[[("_id", .oid idA), ("title", .str "Lamp")]], []⟩ idA (by decide) (by decide)).1
      [("_id", .oid idA), ("title", .str "Lamp")] (by decide) (by decide) (by decide)).1

/-! ## The mutation routes do not look at the identity -/

theorem handler_ignores_token_email (fresh : ObjectId) (r : Route) (req : Request) (s : Store)
    (e : Option String) (hr : r ∈ mutationRoutes) :
    handler fresh r { req with token_email := e } s = handler fresh r req s := by
  simp only [mutationRoutes, List.mem_cons, List.mem_singleton, List.not_mem_nil,
    or_false] at hr
  rcases hr with h | h | h | h | h <;> subst h <;> rfl

theorem deleteProduct_eq (req : Request) (s : Store) (i : ObjectId)
    (hparse : ObjectId.ofString? req.params.id = some i) :
    deleteProduct req s =
      ⟨some ⟨200, .deleted (deleteOne i s.products).1⟩, ⟨(deleteOne i s.products).2, s.bids⟩,
        [.deleteOne .products i], true⟩ := by
  simp [deleteProduct, hparse, send]

theorem deleteBid_eq (req : Request) (s : Store) (i : ObjectId)
    (hparse : ObjectId.ofString? req.params.id = some i) :
    deleteBid req s =
      ⟨some ⟨200, .deleted (deleteOne i s.bids).1⟩, ⟨s.products, (deleteOne i s.bids).2⟩,
        [.deleteOne .bids i], true⟩ := by
  simp [deleteBid, hparse, send]

theorem postProducts_eq (fresh : ObjectId) (req : Request) (s : Store)
    (hid : req.body.get "_id" = none)
    (hfresh : ∀ d ∈ s.products, d.get "_id" ≠ some (.oid fresh)) :
    postProducts fresh req s =
      ⟨some ⟨200, .inserted (.oid fresh)⟩,
        ⟨s.products ++ [req.body ++ [("_id", .oid fresh)]], s.bids⟩,
        [.insertOne .products req.body], true⟩ := by
  simp [postProducts, insertOne_fresh fresh req.body s.products hid hfresh, send]

theorem postBids_eq (fresh : ObjectId) (req : Request) (s : Store)
    (hid : req.body.get "_id" = none)
    (hfresh : ∀ d ∈ s.bids, d.get "_id" ≠ some (.oid fresh)) :
    postBids fresh req s =
      ⟨some ⟨200, .inserted (.oid fresh)⟩,
        ⟨s.products, s.bids ++ [req.body ++ [("_id", .oid fresh)]]⟩,
        [.insertOne .bids req.body], true⟩ := by
  simp [postBids, insertOne_fresh fresh req.body s.bids hid hfresh, send]

/-- C10: on the five mutation routes the outcome does not depend on who is
authenticated: two runs of the same request on the same store whose verifiers both
accept (with whatever emails) give the same response, the same store and the same
storage calls, namely those of the handler run on the request as sent.  So a verified
identity other than the owner named in a document deletes that product or that bid
(afterwards no document has its identifier), overwrites that product with the fields of
the body, and inserts a product or a bid that names another owner. -/
theorem C10_identity_irrelevant (v1 v2 : Verifier) (fresh : ObjectId) (r : Route)
    (req : Request) (s : Store) (hr : r ∈ mutationRoutes)
    (h1 : authenticated v1 req) (h2 : authenticated v2 req) :
    usesGate r = true ∧
    (serve v1 fresh r req s).response = (serve v2 fresh r req s).response ∧
    (serve v1 fresh r req s).store = (serve v2 fresh r req s).store ∧
    (serve v1 fresh r req s).storageOps = (serve v2 fresh r req s).storageOps ∧
    (serve v1 fresh r req s).response = (handler fresh r req s).response ∧
    (serve v1 fresh r req s).store = (handler fresh r req s).store ∧
    (∀ (d : Document) (i : ObjectId) (field owner : String),
      d.get "_id" = some (.oid i) → d.get field = some (.str owner) →
      (verifyFireBaseToken v1 req).req.token_email ≠ some owner →
      req.params.id = i.toHexString →
      (r = .deleteProduct → d ∈ s.products → uniqueIds s.products →
        (serve v1 fresh r req s).response = some ⟨200, .deleted 1⟩ ∧
        d ∉ (serve v1 fresh r req s).store.products ∧
        findOne i (serve v1 fresh r req s).store.products = none) ∧
      (r = .deleteBid → d ∈ s.bids → uniqueIds s.bids →
        (serve v1 fresh r req s).response = some ⟨200, .deleted 1⟩ ∧
        d ∉ (serve v1 fresh r req s).store.bids ∧
        findOne i (serve v1 fresh r req s).store.bids = none) ∧
      (r = .putProduct → findOne i s.products = some d →
        (∀ kv ∈ req.body, plainName kv.1 = true) → req.body.get "_id" = none →
        findOne i (serve v1 fresh r req s).store.products = some (applySet req.body d) ∧
        (∀ k v, req.body.get k = some v → (applySet req.body d).get k = some v))) ∧
    (∀ (field owner : String), req.body.get field = some (.str owner) →
      (verifyFireBaseToken v1 req).req.token_email ≠ some owner →
      req.body.get "_id" = none →
      (r = .postProducts → (∀ x ∈ s.products, x.get "_id" ≠ some (.oid fresh)) →
        (serve v1 fresh r req s).response = some ⟨200, .inserted (.oid fresh)⟩ ∧
        (serve v1 fresh r req s).store.products =
          s.products ++ [req.body ++ [("_id", .oid fresh)]] ∧
        Document.get (req.body ++ [("_id", .oid fresh)]) field = some (.str owner)) ∧
      (r = .postBids → (∀ x ∈ s.bids, x.get "_id" ≠ some (.oid fresh)) →
        (serve v1 fresh r req s).response = some ⟨200, .inserted (.oid fresh)⟩ ∧
        (serve v1 fresh r req s).store.bids =
          s.bids ++ [req.body ++ [("_id", .oid fresh)]] ∧
        Document.get (req.body ++ [("_id", .oid fresh)]) field = some (.str owner))) := by
  have hg : usesGate r = true := by
    simp only [mutationRoutes, List.mem_cons, List.mem_singleton, List.not_mem_nil,
      or_false] at hr
    rcases hr with h | h | h | h | h <;> subst h <;> rfl
  obtain ⟨t1, i1, _, hs1⟩ := serve_of_authenticated v1 fresh r req s hg h1
  obtain ⟨t2, i2, _, hs2⟩ := serve_of_authenticated v2 fresh r req s hg h2
  rw [hs1, hs2, handler_ignores_token_email fresh r req s i1.email hr,
    handler_ignores_token_email fresh r req s i2.email hr]
  refine ⟨hg, rfl, rfl, rfl, rfl, rfl, ?_, ?_⟩
  · intro d i field owner hdi _ _ hid
    have hparse : ObjectId.ofString? req.params.id = some i := by
      rw [hid]; exact ofString_toHexString i
    refine ⟨?_, ?_, ?_⟩
    · intro hr2 hd hu
      subst hr2
      obtain ⟨e1, e2, e3, _⟩ := deleteOne_of_mem i s.products d hd hdi hu
      have hh : handler fresh .deleteProduct req s = deleteProduct req s := rfl
      rw [hh, deleteProduct_eq req s i hparse]
      exact ⟨by simp [e1], e2, e3⟩
    · intro hr2 hd hu
      subst hr2
      obtain ⟨e1, e2, e3, _⟩ := deleteOne_of_mem i s.bids d hd hdi hu
      have hh : handler fresh .deleteBid req s = deleteBid req s := rfl
      rw [hh, deleteBid_eq req s i hparse]
      exact ⟨by simp [e1], e2, e3⟩
    · intro hr2 hd hplain hb
      subst hr2
      obtain ⟨pre, post, he, hpre, hput⟩ := putProduct_plain req s i d hparse hplain hb hd
      have hh : handler fresh .putProduct req s = putProduct req s := rfl
      have hmi : (applySet req.body d).get "_id" = some (.oid i) := by
        rw [applySet_get_of_none _ _ _ hb, hdi]
      rw [hh, hput]
      exact ⟨find_split _ pre post _ hpre (hasId_eq_true hmi),
        fun k v hk => applySet_get_of_some _ _ _ _ hk⟩
  · intro field owner hf _ hb
    refine ⟨?_, ?_⟩
    · intro hr2 hfresh
      subst hr2
      have hh : handler fresh .postProducts req s = postProducts fresh req s := rfl
      rw [hh, postProducts_eq fresh req s hb hfresh]
      exact ⟨rfl, rfl, get_append_of_some _ _ _ _ hf⟩
    · intro hr2 hfresh
      subst hr2
      have hh : handler fresh .postBids req s = postBids fresh req s := rfl
      rw [hh, postBids_eq fresh req s hb hfresh]
      exact ⟨rfl, rfl, get_append_of_some _ _ _ _ hf⟩

theorem C10_identity_irrelevant_witness :
    (serve sampleVerifier idB .deleteBid
        { authorization := some "Bearer tok", params := { id := "aaaaaaaaaaaaaaaaaaaaaaaa" } }
        ⟨[], [[("_id", .oid idA), ("buyer_email", .str "bob@x.com")]]⟩).store =
      (serve acceptAsMallory idB .deleteBid
        { authorization := some "Bearer tok", params := { id := "aaaaaaaaaaaaaaaaaaaaaaaa" } }
        ⟨[], [[("_id", .oid idA), ("buyer_email", .str "bob@x.com")]]⟩).store ∧
    findOne idA (serve acceptAsMallory idB .deleteBid
        { authorization := some "Bearer tok", params := { id := "aaaaaaaaaaaaaaaaaaaaaaaa" } }
        ⟨[], [[("_id", .oid idA), ("buyer_email", .str "bob@x.com")]]⟩).store.bids = none ∧
    (serve acceptAsMallory idB .postBids
        { authorization := some "Bearer tok",
          body := [("buyer_email", .str "bob@x.com"), ("product_id", .str "p1")] }
        emptyStore).store.bids =
      [[("buyer_email", .str "bob@x.com"), ("product_id", .str "p1"), ("_id", .oid idB)]] :=
  ⟨(C10_identity_irrelevant sampleVerifier acceptAsMallory idB .deleteBid
      { authorization := some "Bearer tok", params := { id := "aaaaaaaaaaaaaaaaaaaaaaaa" } }
      ⟨[], [[("_id", .oid idA), ("buyer_email", .str "bob@x.com")]]⟩
      (by decide) (by decide) (by decide)).2.2.1,
   (((C10_identity_irrelevant acceptAsMallory sampleVerifier idB .deleteBid
      { authorization := some "Bearer tok", params := { id := "aaaaaaaaaaaaaaaaaaaaaaaa" } }
      ⟨[], [[("_id", .oid idA), ("buyer_email", .str "bob@x.com")]]⟩
      (by decide) (by decide) (by decide)).2.2.2.2.2.2.1
      [("_id", .oid idA), ("buyer_email", .str "bob@x.com")] idA "buyer_email" "bob@x.com"
      (by decide) (by decide) (by decide) (by decide)).2.1 rfl (by decide)
      (by unfold uniqueIds; decide)).2.2,
   (((C10_identity_irrelevant acceptAsMallory sampleVerifier idB .postBids
      { authorization := some "Bearer tok",
        body := [("buyer_email", .str "bob@x.com"), ("product_id", .str "p1")] }
      emptyStore (by decide) (by decide) (by decide)).2.2.2.2.2.2.2
      "buyer_email" "bob@x.com" (by decide) (by decide) (by decide)).2 rfl
      (by decide)).2.1⟩

/-! ## Identifier uniqueness is kept by every route -/

theorem set_get_same (d : Document) (k : String) (v : Value) :
    (d.set k v).get k = some v := by
  unfold Document.set
  split
  · rename_i h
    have hmap : ∀ (l : Document), (Document.get l k).isSome = true →
        Document.get (l.map (fun kv => if kv.1 = k then (k, v) else kv)) k = some v := by
      intro l
      induction l with
      | nil => intro h0; simp [Document.get] at h0
      | cons x xs ih =>
        obtain ⟨a, b⟩ := x
        intro h0
        by_cases hk : a = k
        · subst hk
          simp [Document.get, List.lookup_cons]
        · have hk2 : (k == a) = false := by simpa using Ne.symm hk
          simp only [Document.get, List.lookup_cons, hk2, List.map_cons, hk, if_false] at h0 ⊢
          exact ih h0
    exact hmap d h
  · rename_i h
    have hn : d.get k = none := by simpa using h
    rw [get_append_of_none _ _ _ hn]
    simp [Document.get, List.lookup_cons]

theorem uniqueIds_append (c : List Document) (d : Document)
    (hc : uniqueIds c) (hd : ∀ x ∈ c, x.get "_id" ≠ d.get "_id") : uniqueIds (c ++ [d]) := by
  unfold uniqueIds at *
  rw [List.pairwise_append]
  refine ⟨hc, List.pairwise_singleton _ _, ?_⟩
  intro x hx y hy
  rw [List.mem_singleton] at hy
  subst hy
  exact hd x hx

theorem insertOne_uniqueIds (fresh : ObjectId) (doc : Document) (c : List Document)
    (r : Value × List Document) (hc : uniqueIds c) (h : insertOne fresh doc c = some r) :
    uniqueIds r.2 := by
  simp only [insertOne] at h
  split at h
  · cases h
  · rename_i hany
    cases h
    apply uniqueIds_append _ _ hc
    intro x hx
    rw [set_get_same]
    intro e
    apply hany
    rw [List.any_eq_true]
    exact ⟨x, hx, hasId_eq_true e⟩

theorem modifyFirst_ids (p : Document → Bool) (f : Document → Document) (c : List Document)
    (hf : ∀ d, p d = true → (f d).get "_id" = d.get "_id") :
    (modifyFirst p f c).map (fun d => d.get "_id") = c.map (fun d => d.get "_id") := by
  induction c with
  | nil => rfl
  | cons x xs ih =>
    by_cases hx : p x = true
    · simp [modifyFirst, hx, hf x hx]
    · simp [modifyFirst, hx, ih]

theorem uniqueIds_iff_map (c : List Document) :
    uniqueIds c ↔ (c.map (fun d => d.get "_id")).Pairwise (fun a b => a ≠ b) := by
  unfold uniqueIds
  rw [List.pairwise_map]

theorem updateOne_uniqueIds (id : ObjectId) (body : Document) (c c2 : List Document)
    (m n : Nat) (hc : uniqueIds c) (h : updateOne id body c = .done m n c2) :
    uniqueIds c2 := by
  simp only [updateOne] at h
  split at h
  · cases h
  · split at h
    · split at h
      · cases h; exact hc
      · cases h
    · rename_i d hd
      split at h
      · cases h
      · rename_i href
        split at h
        · cases h
          rw [uniqueIds_iff_map] at hc ⊢
          rw [modifyFirst_ids]
          · exact hc
          · intro x hx
            have hxi := get_id_of_hasId hx
            cases hb : body.get "_id" with
            | none => exact applySet_get_of_none _ _ _ hb
            | some v =>
              rw [applySet_get_of_some _ _ _ _ hb, hxi]
              by_contra hne
              apply href
              rw [List.any_eq_true]
              refine ⟨("_id", v), mem_of_get hb, ?_⟩
              have hv : (v == Value.oid id) = false := by
                cases hvv : (v == Value.oid id) with
                | false => rfl
                | true =>
                  have e : v = Value.oid id := by simpa using hvv
                  exact absurd (by rw [e]) hne
              simp [setRefused, hv]
        · cases h

theorem deleteOne_uniqueIds (id : ObjectId) (c : List Document) (hc : uniqueIds c) :
    uniqueIds (deleteOne id c).2 :=
  List.Pairwise.sublist (List.eraseP_sublist c) hc

theorem handler_uniqueIds (fresh : ObjectId) (r : Route) (req : Request) (s : Store)
    (hp : uniqueIds s.products) (hb : uniqueIds s.bids) :
    uniqueIds (handler fresh r req s).store.products ∧
    uniqueIds (handler fresh r req s).store.bids := by
  cases r
  case root => exact ⟨hp, hb⟩
  case getProducts => exact ⟨hp, hb⟩
  case getRecentProducts =>
    simp only [handler, getRecentProducts]; split <;> exact ⟨hp, hb⟩
  case getProductById =>
    simp only [handler, getProductById]; split <;> exact ⟨hp, hb⟩
  case postProducts =>
    simp only [handler, postProducts]
    split
    · exact ⟨hp, hb⟩
    · rename_i r hr
      exact ⟨insertOne_uniqueIds fresh _ _ r hp hr, hb⟩
  case getMyProducts =>
    simp only [handler, getMyProducts]; split <;> exact ⟨hp, hb⟩
  case putProduct =>
    simp only [handler, putProduct]
    split
    · exact ⟨hp, hb⟩
    · split
      · exact ⟨hp, hb⟩
      · exact ⟨hp, hb⟩
      · rename_i m n c hr
        exact ⟨updateOne_uniqueIds _ _ _ c m n hp hr, hb⟩
  case deleteProduct =>
    simp only [handler, deleteProduct]
    split
    · exact ⟨hp, hb⟩
    · exact ⟨deleteOne_uniqueIds _ _ hp, hb⟩
  case postBids =>
    simp only [handler, postBids]
    split
    · exact ⟨hp, hb⟩
    · rename_i r hr
      exact ⟨hp, insertOne_uniqueIds fresh _ _ r hb hr⟩
  case getBidsByProduct => exact ⟨hp, hb⟩
  case getBidsByUser =>
    simp only [handler, getBidsByUser]; split <;> exact ⟨hp, hb⟩
  case deleteBid =>
    simp only [handler, deleteBid]
    split
    · exact ⟨hp, hb⟩
    · exact ⟨hp, deleteOne_uniqueIds _ _ hb⟩

theorem serve_uniqueIds (verifyIdToken : Verifier) (fresh : ObjectId) (r : Route)
    (req : Request) (s : Store) (hp : uniqueIds s.products) (hb : uniqueIds s.bids) :
    uniqueIds (serve verifyIdToken fresh r req s).store.products ∧
    uniqueIds (serve verifyIdToken fresh r req s).store.bids := by
  simp only [serve]
  split
  · split
    · exact ⟨hp, hb⟩
    · exact handler_uniqueIds fresh r _ s hp hb
  · exact handler_uniqueIds fresh r req s hp hb


end SmartDeals
